import Mathlib

/-!
Verification of the FranklinCountyVoteOH harmonization core.

This file gives a shallow embedding, over `ℚ` and `List`, of the numeric
pipeline of `src/crosswalk.py`, `src/harmonize.py`, `src/io_utils.py` and
`src/metrics.py`, and proves (or refutes) the stated properties of the
crosswalk builder, the vote reallocator and the metrics engine.

Geometry is treated as an oracle: the geopandas overlay calls
(`gpd.overlay(..., how="intersection")`) are represented by their result
tables (one row per intersection piece, carrying the ids and the areas),
and geometric facts (an intersection piece is contained in its source
polygon, areas are non-negative) appear as explicit hypotheses.  All float
arithmetic of pandas is modelled over `ℚ`; the special float values are
modelled explicitly where the code can produce them (`Option` with `none`
for a non-finite value, and the `PdFloat` type where NaN and the two
infinities must be told apart).
-/

namespace FCVote

/-- A cell of a raw tabular input as `pd.to_numeric(..., errors="coerce")`
sees it: `num q` stands for a value the coercion parses as the number `q`
(numbers and numeric strings), `str s` for text the coercion turns into
NaN, and `na` for a missing value. -/
inductive Cell where
  | na : Cell
  | num : ℚ → Cell
  | str : String → Cell
deriving DecidableEq

/-- Embedding of `pd.to_numeric(col, errors="coerce")` at one cell: the
parsed number, or `none` for NaN. -/
def toNumericCoerce : Cell → Option ℚ
  | Cell.num q => some q
  | Cell.na => none
  | Cell.str _ => none

/-- Embedding of `pd.to_numeric(col, errors="coerce").fillna(0)` at one cell. -/
def toNumericFillnaZero (c : Cell) : ℚ :=
  (toNumericCoerce c).getD 0

/-- Embedding of `io_utils.ensure_id_consistency` at one id value:
`ids.astype(str).str.strip().str.upper()`. -/
def ensure_id_consistency (s : String) : String :=
  s.trim.toUpper

/-- Embedding of `astype(int)` on a float column at one value: C-style
truncation toward zero. -/
def truncToZero (q : ℚ) : ℤ :=
  if q < 0 then ⌈q⌉ else ⌊q⌋

/-- Embedding of numpy/pandas `.round()` (used by `Series.round()` in
`harmonize.py`): round half to even. -/
def npRound (x : ℚ) : ℤ :=
  if Int.fract x = 1/2 then (if 2 ∣ ⌊x⌋ then ⌊x⌋ else ⌊x⌋ + 1) else round x

/-- Embedding of a float division followed by `.fillna(0)`: `0/0` is NaN
and becomes `0`; a nonzero numerator over `0` is an infinity which
`fillna` does not replace, modelled as `none`. -/
def fillna_zero_div (a b : ℚ) : Option ℚ :=
  if b = 0 then (if a = 0 then some 0 else none) else some (a / b)

/-- A pandas float value where NaN and the infinities must be told apart.
NaN doubles as pandas' missing value ("null"). -/
inductive PdFloat where
  | na : PdFloat
  | fin : ℚ → PdFloat
  | pinf : PdFloat
  | ninf : PdFloat
deriving DecidableEq

/-- Embedding of an unguarded float division of two series entries that may
be missing (`none` = NaN/NA): NaN propagates; `a / 0` is NaN for `a = 0`
and a signed infinity otherwise. -/
def pdDivFloat : Option ℚ → Option ℚ → PdFloat
  | none, _ => PdFloat.na
  | some _, none => PdFloat.na
  | some a, some b =>
      if b = 0 then (if a = 0 then PdFloat.na else if 0 < a then PdFloat.pinf else PdFloat.ninf)
      else PdFloat.fin (a / b)

/-- Keys of a pandas `groupby`, one per distinct key value.  (pandas sorts
the group keys; the order of this list is first-appearance order, which is
immaterial to every property below — only membership and per-key sums are
used.) -/
def groupKeys {α κ : Type} [DecidableEq κ] (l : List α) (key : α → κ) : List κ :=
  (l.map key).dedup

/-- Sum of `f` over the rows of one group of a pandas `groupby(...).sum()`
or `.transform("sum")`. -/
def groupSum {α κ : Type} [DecidableEq κ] (l : List α) (key : α → κ) (f : α → ℚ) (k : κ) : ℚ :=
  ((l.filter (fun a => decide (key a = k))).map f).sum

/-! ## Crosswalk builder (`src/crosswalk.py`) -/

/-- One row of the overlay `gpd.overlay(past_gdf[[past_id, "geometry",
"_orig_area"]], base_gdf[[base_id, "geometry"]], how="intersection")` of
`_build_area_crosswalk`: the two ids (already normalized by
`build_crosswalk`), the `_orig_area` column carried over from `past_gdf`,
and the area of the intersection piece (`overlay.geometry.area`). -/
structure OverlayRow where
  pastId : String
  baseId : String
  origArea : ℚ
  intersectArea : ℚ
deriving DecidableEq

/-- One row of a crosswalk table `[past_id, base_id, frac]`. -/
structure CWRow where
  pastId : String
  baseId : String
  frac : ℚ
deriving DecidableEq

/-- Sum of `frac` over one past polygon's crosswalk rows
(`crosswalk.groupby(past_id)["frac"]` summed at one key). -/
def fracSumFor (rows : List CWRow) (p : String) : ℚ :=
  ((rows.filter (fun r => decide (r.pastId = p))).map (fun r => r.frac)).sum

/-- Embedding of `_build_area_crosswalk` from the overlay on: filter out
slivers (`_intersect_area > sliver_tolerance`), compute
`frac = _intersect_area / _orig_area`, then renormalize `frac` by the
per-past-polygon sum (`groupby(past_id)["frac"].transform("sum")`). -/
def area_crosswalk_from_overlay (overlay : List OverlayRow) (sliver_tolerance : ℚ) :
    List CWRow :=
  let kept := overlay.filter (fun r => decide (sliver_tolerance < r.intersectArea))
  let withFrac : List CWRow :=
    kept.map (fun r => { pastId := r.pastId, baseId := r.baseId,
                         frac := r.intersectArea / r.origArea })
  withFrac.map (fun r => { r with frac := r.frac / fracSumFor withFrac r.pastId })

/-- A census block as `_build_population_crosswalk` prepares it: the raw
population cell (the `block_pop_field` column, fed to
`pd.to_numeric(...).fillna(0)`) and the block's geometric area.  The
block's `_block_id` is its index in the list (`range(len(blocks_gdf))`). -/
structure BlockRec where
  popCell : Cell
  area : ℚ
deriving DecidableEq

/-- One row of an overlay of the blocks layer with the past (or base)
layer: the block index, the past (or base) polygon id, and the area of the
intersection piece. -/
structure BlockOverlayRow where
  blockIdx : ℕ
  regionId : String
  intersectArea : ℚ
deriving DecidableEq

/-- The `_pop` value of a block (`to_numeric(...).fillna(0)`), by index. -/
def blockPop (blocks : List BlockRec) (i : ℕ) : ℚ :=
  match blocks.get? i with
  | some b => toNumericFillnaZero b.popCell
  | none => 0

/-- The original geometric area of a block, by index (the
`block_areas = blocks_gdf.set_index("_block_id").geometry.area` map). -/
def blockArea (blocks : List BlockRec) (i : ℕ) : ℚ :=
  match blocks.get? i with
  | some b => b.area
  | none => 0

/-- The `_allocated_pop` of one overlay piece:
`_pop * (_intersect_area / _block_orig_area)`. -/
def allocatedPop (blocks : List BlockRec) (r : BlockOverlayRow) : ℚ :=
  blockPop blocks r.blockIdx * (r.intersectArea / blockArea blocks r.blockIdx)

/-- Embedding of `_build_population_crosswalk` up to (and including) the
`crosswalk_blocks.groupby([past_id, base_id])["_pop_flow"].sum()` step:
the per-(past, base) population flows, columns `[past_id, base_id, _pop]`.
Both overlays are sliver-filtered, allocated population is grouped by
(region, block), the two group tables are inner-joined on the block id,
the flow of a joined pair is `min(_past_pop, _base_pop)`, and flows are
summed per (past, base) pair. -/
def population_pair_flows (blocks : List BlockRec)
    (blocks_past blocks_base : List BlockOverlayRow) (sliver_tolerance : ℚ) :
    List (String × String × ℚ) :=
  let bp := blocks_past.filter (fun r => decide (sliver_tolerance < r.intersectArea))
  let bb := blocks_base.filter (fun r => decide (sliver_tolerance < r.intersectArea))
  let pastBlock : List (String × ℕ × ℚ) :=
    (groupKeys bp (fun r => (r.regionId, r.blockIdx))).map
      (fun k => (k.1, k.2, groupSum bp (fun r => (r.regionId, r.blockIdx)) (allocatedPop blocks) k))
  let baseBlock : List (String × ℕ × ℚ) :=
    (groupKeys bb (fun r => (r.regionId, r.blockIdx))).map
      (fun k => (k.1, k.2, groupSum bb (fun r => (r.regionId, r.blockIdx)) (allocatedPop blocks) k))
  let pairs : List (String × String × ℚ) :=
    pastBlock.flatMap (fun pb =>
      (baseBlock.filter (fun qb => decide (qb.2.1 = pb.2.1))).map
        (fun qb => (pb.1, qb.1, min pb.2.2 qb.2.2)))
  (groupKeys pairs (fun t => (t.1, t.2.1))).map
    (fun k => (k.1, k.2, groupSum pairs (fun t => (t.1, t.2.1)) (fun t => t.2.2) k))

/-- Embedding of `_build_population_crosswalk`: the pair flows, then
`frac = _pop / total_pop_by_past` where `total_pop_by_past` is the
`groupby(past_id)["_pop"].transform("sum")` of the flow table. -/
def population_crosswalk_from_overlays (blocks : List BlockRec)
    (blocks_past blocks_base : List BlockOverlayRow) (sliver_tolerance : ℚ) :
    List CWRow :=
  let cw := population_pair_flows blocks blocks_past blocks_base sliver_tolerance
  cw.map (fun t => { pastId := t.1, baseId := t.2.1,
                     frac := t.2.2 / groupSum cw (fun u => u.1) (fun u => u.2.2) t.1 })

/-- The metadata of a GeoDataFrame that `build_crosswalk`'s validation
reads: its CRS and its column names. -/
structure GFrame where
  crs : String
  columns : List String
deriving DecidableEq

/-- Embedding of `build_crosswalk`: the validation steps in source order
(`ensure_crs_match`, the two column checks, the weight-method check, the
population-input check), then dispatch to the area or the population
algorithm.  The geometric overlays are oracle inputs; their id values are
the normalized ones (`ensure_id_consistency` is applied to copies of the
inputs before the overlay).  The population branch re-checks the blocks
CRS against both layers (`_build_population_crosswalk`). -/
def build_crosswalk (past base : GFrame) (past_id base_id weight : String)
    (blocks : Option GFrame) (block_pop_field : Option String)
    (area_overlay : List OverlayRow) (blocks_data : List BlockRec)
    (blocks_past_overlay blocks_base_overlay : List BlockOverlayRow)
    (sliver_tolerance : ℚ) : Except String (List CWRow) :=
  if past.crs ≠ base.crs then Except.error "CRS mismatch"
  else if past_id ∉ past.columns then Except.error "column not found in past_gdf"
  else if base_id ∉ base.columns then Except.error "column not found in base_gdf"
  else if weight ≠ "area" ∧ weight ≠ "pop" then Except.error "Invalid weight method"
  else if weight = "pop" ∧ (blocks = none ∨ block_pop_field = none) then
    Except.error "Population weighting requires blocks_gdf and block_pop_field"
  else if weight = "area" then
    Except.ok (area_crosswalk_from_overlay area_overlay sliver_tolerance)
  else
    match blocks with
    | none => Except.error "Population weighting requires blocks_gdf and block_pop_field"
    | some bf =>
      if past.crs ≠ bf.crs then Except.error "CRS mismatch"
      else if base.crs ≠ bf.crs then Except.error "CRS mismatch"
      else Except.ok (population_crosswalk_from_overlays blocks_data
            blocks_past_overlay blocks_base_overlay sliver_tolerance)

/-! ## Results loading (`src/io_utils.py`, `load_results_csv`) -/

/-- One raw row of a results CSV (the required columns are present — the
loader has already verified that): the id cell (read with `dtype=str`) and
the two vote cells. -/
structure RawResRow where
  idCell : String
  dCell : Cell
  rCell : Cell
deriving DecidableEq

/-- One record of the table `load_results_csv` returns:
columns `[precinct_id, D_votes, R_votes, total]`. -/
structure ResRow where
  precinct_id : String
  D_votes : ℤ
  R_votes : ℤ
  total : ℤ
deriving DecidableEq

/-- Embedding of the per-row normalization of `load_results_csv`:
`precinct_id = ensure_id_consistency(df[id_field])`,
`D_votes = to_numeric(df[d_col], errors="coerce").fillna(0).astype(int)`
(likewise `R_votes`), `total = D_votes + R_votes`. -/
def load_results_row (row : RawResRow) : ResRow :=
  let d := truncToZero (toNumericFillnaZero row.dCell)
  let r := truncToZero (toNumericFillnaZero row.rCell)
  { precinct_id := ensure_id_consistency row.idCell, D_votes := d, R_votes := r,
    total := d + r }

/-- Embedding of `load_results_csv` on the parsed rows. -/
def load_results_csv (rows : List RawResRow) : List ResRow :=
  rows.map load_results_row

/-! ## Vote reallocation (`src/harmonize.py`, `reallocate_votes_to_base`) -/

/-- One row of `crosswalk.merge(results_df, left_on=year_id,
right_on="precinct_id", how="left")` after the missing-precinct fill:
the crosswalk columns plus the (possibly zero-filled) vote columns. -/
structure AllocRow where
  pastId : String
  baseId : String
  frac : ℚ
  D_votes : ℚ
  R_votes : ℚ
  total : ℚ
deriving DecidableEq

/-- Embedding of the left join of the crosswalk with the results table and
of the missing-precinct fill: a crosswalk row whose `past_id` matches no
result row keeps one output row with `D_votes = R_votes = total = 0`
(`crosswalk_with_votes.loc[missing_mask, [...]] = 0`); a row with matches
gets one output row per matching result row. -/
def merge_crosswalk_results (cw : List CWRow) (res : List ResRow) : List AllocRow :=
  cw.flatMap (fun c =>
    if (res.filter (fun r => decide (r.precinct_id = c.pastId))).isEmpty then
      [{ pastId := c.pastId, baseId := c.baseId, frac := c.frac,
         D_votes := 0, R_votes := 0, total := 0 }]
    else
      (res.filter (fun r => decide (r.precinct_id = c.pastId))).map
        (fun r => { pastId := c.pastId, baseId := c.baseId, frac := c.frac,
                    D_votes := (r.D_votes : ℚ), R_votes := (r.R_votes : ℚ),
                    total := (r.total : ℚ) }))

/-- One record of a harmonized table: columns
`[base_id, D_votes, R_votes, total, year, D_share]`.  `D_share` is
`Option ℚ` with `none` standing for a non-finite float (an infinity that
`fillna(0)` would not replace). -/
structure HarmRow where
  base_id : String
  D_votes : ℤ
  R_votes : ℤ
  total : ℤ
  year : String
  D_share : Option ℚ
deriving DecidableEq

/-- Embedding of the aggregation step of `reallocate_votes_to_base`:
allocate (`D_allocated = D_votes * frac`, ...), group by `base_id` and
sum, round each sum to an integer, attach the year, and compute
`D_share = D_votes / total` followed by `.fillna(0)`. -/
def harmonized_table (cw : List CWRow) (res : List ResRow) (year : String) : List HarmRow :=
  let merged := merge_crosswalk_results cw res
  (groupKeys merged (fun a => a.baseId)).map (fun b =>
    let dpre := groupSum merged (fun a => a.baseId) (fun a => a.D_votes * a.frac) b
    let rpre := groupSum merged (fun a => a.baseId) (fun a => a.R_votes * a.frac) b
    let tpre := groupSum merged (fun a => a.baseId) (fun a => a.total * a.frac) b
    { base_id := b, D_votes := npRound dpre, R_votes := npRound rpre,
      total := npRound tpre, year := year,
      D_share := fillna_zero_div ((npRound dpre : ℚ)) ((npRound tpre : ℚ)) })

/-- Embedding of the geometry join and the zero fill of
`reallocate_votes_to_base`: `base_gdf[[base_id, "geometry"]].merge(
harmonized, on=base_id, how="left")` keeps one row per base polygon (the
harmonized table has at most one row per `base_id`), and a base polygon
with no harmonized row gets `D_votes = R_votes = total = D_share = 0` and
the year filled in. -/
def harmonized_gdf (base_ids : List String) (cw : List CWRow) (res : List ResRow)
    (year : String) : List HarmRow :=
  let table := harmonized_table cw res year
  base_ids.map (fun b =>
    match table.find? (fun h => decide (h.base_id = b)) with
    | some h => h
    | none => { base_id := b, D_votes := 0, R_votes := 0, total := 0,
                year := year, D_share := some 0 })

/-- Embedding of the CSV persisted by `reallocate_votes_to_base`
(`harmonized[[base_id, "year", "D_votes", "R_votes", "total",
"D_share"]].to_csv(...)`): the column selection is applied to the
pre-join `harmonized` table, not to `harmonized_gdf`. -/
def harmonized_csv_rows (cw : List CWRow) (res : List ResRow) (year : String) :
    List (String × String × ℤ × ℤ × ℤ × Option ℚ) :=
  (harmonized_table cw res year).map
    (fun h => (h.base_id, h.year, h.D_votes, h.R_votes, h.total, h.D_share))

/-- The `weights:` section of the configuration as
`reallocate_votes_to_base` reads it (`cfg.get("weights", {})`). -/
structure WeightsConfig where
  blocks_gpkg : Option String
  block_pop_field : Option String
deriving DecidableEq

/-- How a harmonization run resolves its weighting method. -/
inductive WeightOutcome where
  | proceeds (effective : String) : WeightOutcome
  | fails (msg : String) : WeightOutcome
deriving DecidableEq

/-- Embedding of the weighting-method logic of a harmonization run:
`reallocate_votes_to_base` (harmonize.py, the `weight == "pop"` prelude)
followed by `build_crosswalk`'s validation of the weighting inputs
(crosswalk.py).  When population weighting is requested but no blocks
path is configured, `reallocate_votes_to_base` logs a warning and sets
`weight = "area"` before calling `build_crosswalk`. -/
def reallocate_weight_outcome (weight : String) (wcfg : WeightsConfig) : WeightOutcome :=
  let resolved : String × Bool × Option String :=
    if weight = "pop" then
      match wcfg.blocks_gpkg with
      | some _ => ("pop", true, wcfg.block_pop_field)
      | none => ("area", false, none)
    else (weight, false, none)
  if resolved.1 ≠ "area" ∧ resolved.1 ≠ "pop" then
    WeightOutcome.fails "Invalid weight method"
  else if resolved.1 = "pop" ∧ (resolved.2.1 = false ∨ resolved.2.2 = none) then
    WeightOutcome.fails "Population weighting requires blocks_gdf and block_pop_field"
  else WeightOutcome.proceeds resolved.1

/-! ## Metrics engine (`src/metrics.py`) -/

/-- One row of the long-format input of the metrics engine: columns
`[base_id, year, D_votes, R_votes, total, D_share]`.  The `year` values
are strings (the harmonized tables store the year as text), so pandas
sorts them lexicographically. -/
structure LongRow where
  base_id : String
  year : String
  D_votes : ℚ
  R_votes : ℚ
  total : ℚ
  D_share : ℚ
deriving DecidableEq

/-- The sort key of `df.sort_values([base_id, "year"])`: lexicographic on
(base_id, year). -/
def lexLe (a b : LongRow) : Bool :=
  decide (a.base_id < b.base_id ∨ (a.base_id = b.base_id ∧ a.year ≤ b.year))

/-- Embedding of `df.sort_values([base_id, "year"])` (a stable sort). -/
def sort_values_id_year (l : List LongRow) : List LongRow :=
  l.mergeSort lexLe

/-- The previous row of the same `base_id` group, in frame order: the
value `groupby(base_id).shift(1)` pairs with a row, given the rows that
precede it. -/
def prevSameGroup (seen : List LongRow) (r : LongRow) : Option LongRow :=
  (seen.filter (fun a => decide (a.base_id = r.base_id))).getLast?

/-- Pair every row with its `groupby(base_id).shift(1)` predecessor,
walking the frame in order and carrying the rows already seen. -/
def shiftRows : List LongRow → List LongRow → List (LongRow × Option LongRow)
  | _, [] => []
  | seen, r :: rest => (r, prevSameGroup seen r) :: shiftRows (seen ++ [r]) rest

/-- One output row of `compute_two_party_metrics`, restricted to the
columns at issue here (`swing_yoy`, `turnout_prev`, `turnout_change_yoy`,
`turnout_change_yoy_pct`; the `swing_vs_<year>` columns are separate
per-column computations that do not feed into these). -/
structure MetricsRow where
  row : LongRow
  swing_yoy : Option ℚ
  turnout_prev : Option ℚ
  turnout_change_yoy : Option ℚ
  turnout_change_yoy_pct : Option ℚ
deriving DecidableEq

/-- Embedding of `compute_two_party_metrics`: sort by `[base_id, year]`,
shift `D_share` and `turnout = total` within each `base_id` group, and
compute `swing_yoy = D_share - D_share_prev`,
`turnout_change_yoy = turnout - turnout_prev`, and
`turnout_change_yoy_pct = turnout_change_yoy / turnout_prev.replace(0,
pd.NA)` (so a zero previous turnout gives a missing value, not a
division by zero). -/
def compute_two_party_metrics (l : List LongRow) : List MetricsRow :=
  (shiftRows [] (sort_values_id_year l)).map (fun p =>
    let tprev := p.2.map (fun a => a.total)
    { row := p.1,
      swing_yoy := p.2.map (fun a => p.1.D_share - a.D_share),
      turnout_prev := tprev,
      turnout_change_yoy := tprev.map (fun t => p.1.total - t),
      turnout_change_yoy_pct :=
        match tprev with
        | none => none
        | some t => if t = 0 then none else some ((p.1.total - t) / t) })

/-- Reference reading of the spec's clause, stated in the spec's own
words: the row of the same polygon at the greatest year strictly before
`r.year` — "the previous year's D_share for the same polygon", years
sorted ascending.  Used only to compare `compute_two_party_metrics`
against the specification. -/
def maxYearRow : List LongRow → Option LongRow
  | [] => none
  | a :: t =>
      match maxYearRow t with
      | none => some a
      | some b => if a.year < b.year then some b else some a

/-- Reference definition (from the spec's words): the same polygon's row
in the previous observed year. -/
def prev_observed_row (l : List LongRow) (r : LongRow) : Option LongRow :=
  maxYearRow (l.filter (fun a => decide (a.base_id = r.base_id ∧ a.year < r.year)))

/-- One row of `county_aggregates`: the per-year sums, the county
`D_share` (an unguarded float division), the turnout columns and the
unguarded `turnout_change_yoy_pct = turnout_change_yoy / turnout_prev`.
(The county `swing_yoy` column is an independent per-column computation
not at issue here.) -/
structure AggRow where
  year : String
  D_votes : ℚ
  R_votes : ℚ
  total : ℚ
  D_share : PdFloat
  turnout : ℚ
  turnout_prev : Option ℚ
  turnout_change_yoy : Option ℚ
  turnout_change_yoy_pct : PdFloat
deriving DecidableEq

/-- Walk the year-sorted aggregate rows carrying the previous row, filling
the `shift(1)`-derived columns.  Each element of the input is
`(year, D_votes, R_votes, total)`. -/
def aggShift : Option (String × ℚ × ℚ × ℚ) → List (String × ℚ × ℚ × ℚ) → List AggRow
  | _, [] => []
  | prev, a :: rest =>
      { year := a.1, D_votes := a.2.1, R_votes := a.2.2.1, total := a.2.2.2,
        D_share := pdDivFloat (some a.2.1) (some a.2.2.2),
        turnout := a.2.2.2,
        turnout_prev := prev.map (fun p => p.2.2.2),
        turnout_change_yoy := prev.map (fun p => a.2.2.2 - p.2.2.2),
        turnout_change_yoy_pct :=
          pdDivFloat (prev.map (fun p => a.2.2.2 - p.2.2.2)) (prev.map (fun p => p.2.2.2)) }
        :: aggShift (some a) rest

/-- Embedding of `county_aggregates`: group by year and sum the vote
columns (pandas sorts the group keys, and the subsequent
`sort_values("year")` keeps that order), compute the county `D_share`,
then the `shift(1)`-derived turnout columns — the final division
`turnout_change_yoy / turnout_prev` has no zero guard. -/
def county_aggregates (l : List LongRow) : List AggRow :=
  let years := (groupKeys l (fun r => r.year)).mergeSort (fun a b => decide (a ≤ b))
  aggShift none (years.map (fun y =>
    (y, groupSum l (fun r => r.year) (fun r => r.D_votes) y,
        groupSum l (fun r => r.year) (fun r => r.R_votes) y,
        groupSum l (fun r => r.year) (fun r => r.total) y)))

/-! ## Object-level model of `build_crosswalk` (for the frame-effect claim)

Python mutates DataFrame objects in place (`df[col] = ...`), so the
no-input-mutation property is stated over an explicit heap of frame
objects: the caller's three GeoDataFrames live at heap references, a
`.copy()` allocates a fresh object with the same value, a column
assignment stores into the object it is applied to, and every other
pandas/geopandas operation yields a fresh value.  The geometric
operations (`geometry.area`, `gpd.overlay`) are oracle parameters. -/

/-- A cell of a DataFrame column in the object-level model. -/
inductive FCell where
  | strv : String → FCell
  | qv : ℚ → FCell
deriving DecidableEq

/-- A DataFrame object: its CRS and its named columns. -/
structure PyFrame where
  crs : String
  cols : List (String × List FCell)
deriving DecidableEq

/-- Read a column (`df[name]`). -/
def getCol (f : PyFrame) (name : String) : List FCell :=
  match f.cols.find? (fun c => decide (c.1 = name)) with
  | some c => c.2
  | none => []

/-- Column assignment (`df[name] = v`): replace the column if present,
append it otherwise.  This is the one mutating frame operation. -/
def setCol (f : PyFrame) (name : String) (v : List FCell) : PyFrame :=
  if name ∈ f.cols.map Prod.fst then
    { f with cols := f.cols.map (fun c => if c.1 = name then (c.1, v) else c) }
  else { f with cols := f.cols ++ [(name, v)] }

/-- Column selection (`df[[n1, n2, ...]]`): a fresh frame value. -/
def selectCols (f : PyFrame) (names : List String) : PyFrame :=
  { f with cols := names.map (fun n => (n, getCol f n)) }

/-- Read a column as numbers (a float column of the model). -/
def colQ (f : PyFrame) (name : String) : List ℚ :=
  (getCol f name).map (fun c => match c with | FCell.qv q => q | FCell.strv _ => 0)

/-- Keep the entries of a list selected by a boolean mask. -/
def maskList {α : Type} (v : List α) (m : List Bool) : List α :=
  ((List.zip v m).filter (fun p => p.2)).map (fun p => p.1)

/-- Boolean-mask row filtering (`df[mask]`): a fresh frame value. -/
def filterFrame (f : PyFrame) (m : List Bool) : PyFrame :=
  { f with cols := f.cols.map (fun c => (c.1, maskList c.2 m)) }

/-- The `ensure_id_consistency` normalization at one cell
(`astype(str).str.strip().str.upper()`). -/
def ensure_id_cell (c : FCell) : FCell :=
  match c with
  | FCell.strv s => FCell.strv (ensure_id_consistency s)
  | FCell.qv q => FCell.strv (ensure_id_consistency (toString q))

/-- The `ensure_id_consistency` normalization of a column. -/
def ensure_id_col (v : List FCell) : List FCell :=
  v.map ensure_id_cell

/-- The `to_numeric(...).fillna(0)` coercion at one model cell (numeric
cells are the ones `to_numeric` parses). -/
def cellToNumericFill (c : FCell) : ℚ :=
  match c with
  | FCell.qv q => q
  | FCell.strv _ => 0

/-- The heap of frame objects; a reference is an index. -/
abbrev Heap := List PyFrame

/-- Dereference (reading a frame object). -/
def heapLoad (h : Heap) (r : ℕ) : PyFrame :=
  List.getD h r { crs := "", cols := [] }

/-- In-place mutation of the object at `r`. -/
def heapStore (h : Heap) (r : ℕ) (v : PyFrame) : Heap :=
  List.set h r v

/-- The geometric engine as an oracle: `geometry.area` of a frame's rows,
and `gpd.overlay(a, b, how="intersection")`. -/
structure GeoOracle where
  areaCol : PyFrame → List ℚ
  overlayOf : PyFrame → PyFrame → PyFrame

/-- Embedding of `_build_area_crosswalk` at object level, from the two
(already id-normalized) frame objects at `rPast`, `rBase`:
`past_gdf = past_gdf.copy()` allocates; `past_gdf["_orig_area"] = ...`
mutates the copy; the overlay is a fresh object whose `_intersect_area`
and `frac` columns are assigned in place; the sliver filter rebinds the
local name to a fresh filtered object; `crosswalk = overlay[[...]].copy()`
allocates, and the renormalized `frac` is assigned to that copy. -/
def area_branch_heap (g : GeoOracle) (h : Heap) (rPast rBase : ℕ)
    (past_id base_id : String) (tol : ℚ) : Heap × PyFrame :=
  let h1 := h ++ [heapLoad h rPast]
  let rP := h.length
  let h2 := heapStore h1 rP
    (setCol (heapLoad h1 rP) "_orig_area" ((g.areaCol (heapLoad h1 rP)).map FCell.qv))
  let ov0 := g.overlayOf
    (selectCols (heapLoad h2 rP) [past_id, "geometry", "_orig_area"])
    (selectCols (heapLoad h2 rBase) [base_id, "geometry"])
  let h3 := h2 ++ [ov0]
  let rOv := h2.length
  if (getCol (heapLoad h3 rOv) past_id).isEmpty then
    (h3, { crs := "", cols := [(past_id, []), (base_id, []), ("frac", [])] })
  else
    let h4 := heapStore h3 rOv
      (setCol (heapLoad h3 rOv) "_intersect_area" ((g.areaCol (heapLoad h3 rOv)).map FCell.qv))
    let mask := (colQ (heapLoad h4 rOv) "_intersect_area").map (fun a => decide (tol < a))
    let h5 := h4 ++ [filterFrame (heapLoad h4 rOv) mask]
    let rOv2 := h4.length
    let fracs := List.zipWith (fun a b => a / b)
      (colQ (heapLoad h5 rOv2) "_intersect_area") (colQ (heapLoad h5 rOv2) "_orig_area")
    let h6 := heapStore h5 rOv2 (setCol (heapLoad h5 rOv2) "frac" (fracs.map FCell.qv))
    let h7 := h6 ++ [selectCols (heapLoad h6 rOv2) [past_id, base_id, "frac"]]
    let rCw := h6.length
    let ids := getCol (heapLoad h7 rCw) past_id
    let fr := colQ (heapLoad h7 rCw) "frac"
    let sums := ids.map (fun i =>
      (((List.zip ids fr).filter (fun p => decide (p.1 = i))).map (fun p => p.2)).sum)
    let h8 := heapStore h7 rCw (setCol (heapLoad h7 rCw) "frac"
      ((List.zipWith (fun a b => a / b) fr sums).map FCell.qv))
    (h8, heapLoad h8 rCw)

/-- Group rows of a two-key frame slice and sum a value column
(`groupby([k1, "_block_id"])["_allocated_pop"].sum().reset_index()`). -/
def frameGroupSum2 (k1 k2 : List FCell) (vals : List ℚ) : List ((FCell × FCell) × ℚ) :=
  let rows := List.zip (List.zip k1 k2) vals
  (groupKeys rows (fun r => r.1)).map
    (fun k => (k, groupSum rows (fun r => r.1) (fun r => r.2) k))

/-- Embedding of `_build_population_crosswalk` at object level: checks the
blocks CRS against both layers, copies the blocks frame and assigns its
`_block_id` and `_pop` columns on the copy, overlays the blocks with each
layer (fresh objects whose helper columns are assigned in place), and
computes the flow table and the final crosswalk frame as fresh values. -/
def pop_branch_heap (g : GeoOracle) (h : Heap) (rPast rBase rBlocks : ℕ)
    (past_id base_id pop_field : String) (tol : ℚ) : Heap × Except String PyFrame :=
  if (heapLoad h rPast).crs ≠ (heapLoad h rBlocks).crs then (h, Except.error "CRS mismatch")
  else if (heapLoad h rBase).crs ≠ (heapLoad h rBlocks).crs then (h, Except.error "CRS mismatch")
  else
    let h1 := h ++ [heapLoad h rBlocks]
    let rB := h.length
    let nBlocks := (getCol (heapLoad h1 rB) "geometry").length
    let h2 := heapStore h1 rB (setCol (heapLoad h1 rB) "_block_id"
      ((List.range nBlocks).map (fun i => FCell.qv i)))
    let h3 := heapStore h2 rB (setCol (heapLoad h2 rB) "_pop"
      ((getCol (heapLoad h2 rB) pop_field).map (fun c => FCell.qv (cellToNumericFill c))))
    -- blocks_past = gpd.overlay(blocks[...], past[...]); sliver filter (fresh objects)
    let bp0 := g.overlayOf (selectCols (heapLoad h3 rB) ["_block_id", "_pop", "geometry"])
      (selectCols (heapLoad h3 rPast) [past_id, "geometry"])
    let h4 := h3 ++ [bp0]
    let rBP0 := h3.length
    let h5 := h4 ++ [filterFrame (heapLoad h4 rBP0)
      ((g.areaCol (heapLoad h4 rBP0)).map (fun a => decide (tol < a)))]
    let rBP := h4.length
    -- block_areas = blocks_gdf.set_index("_block_id").geometry.area
    let blockAreas := g.areaCol (heapLoad h5 rB)
    let areaOfBlock := fun (c : FCell) =>
      match c with
      | FCell.qv q => List.getD blockAreas q.num.toNat 0
      | FCell.strv _ => 0
    -- the four helper-column assignments on blocks_past
    let h6 := heapStore h5 rBP (setCol (heapLoad h5 rBP) "_block_orig_area"
      ((getCol (heapLoad h5 rBP) "_block_id").map (fun c => FCell.qv (areaOfBlock c))))
    let h7 := heapStore h6 rBP (setCol (heapLoad h6 rBP) "_intersect_area"
      ((g.areaCol (heapLoad h6 rBP)).map FCell.qv))
    let h8 := heapStore h7 rBP (setCol (heapLoad h7 rBP) "_area_frac"
      ((List.zipWith (fun a b => a / b) (colQ (heapLoad h7 rBP) "_intersect_area")
        (colQ (heapLoad h7 rBP) "_block_orig_area")).map FCell.qv))
    let h9 := heapStore h8 rBP (setCol (heapLoad h8 rBP) "_allocated_pop"
      ((List.zipWith (fun a b => a * b) (colQ (heapLoad h8 rBP) "_pop")
        (colQ (heapLoad h8 rBP) "_area_frac")).map FCell.qv))
    -- blocks_base = gpd.overlay(blocks[...], base[...]); sliver filter; helper columns
    let bb0 := g.overlayOf (selectCols (heapLoad h9 rB) ["_block_id", "_pop", "geometry"])
      (selectCols (heapLoad h9 rBase) [base_id, "geometry"])
    let h10 := h9 ++ [bb0]
    let rBB0 := h9.length
    let h11 := h10 ++ [filterFrame (heapLoad h10 rBB0)
      ((g.areaCol (heapLoad h10 rBB0)).map (fun a => decide (tol < a)))]
    let rBB := h10.length
    let h12 := heapStore h11 rBB (setCol (heapLoad h11 rBB) "_block_orig_area"
      ((getCol (heapLoad h11 rBB) "_block_id").map (fun c => FCell.qv (areaOfBlock c))))
    let h13 := heapStore h12 rBB (setCol (heapLoad h12 rBB) "_intersect_area"
      ((g.areaCol (heapLoad h12 rBB)).map FCell.qv))
    let h14 := heapStore h13 rBB (setCol (heapLoad h13 rBB) "_area_frac"
      ((List.zipWith (fun a b => a / b) (colQ (heapLoad h13 rBB) "_intersect_area")
        (colQ (heapLoad h13 rBB) "_block_orig_area")).map FCell.qv))
    let h15 := heapStore h14 rBB (setCol (heapLoad h14 rBB) "_allocated_pop"
      ((List.zipWith (fun a b => a * b) (colQ (heapLoad h14 rBB) "_pop")
        (colQ (heapLoad h14 rBB) "_area_frac")).map FCell.qv))
    -- the groupbys, the inner merge on _block_id, the min-flow and the final
    -- crosswalk are fresh values (each pandas step returns a new frame)
    let pastBlock := frameGroupSum2 (getCol (heapLoad h15 rBP) past_id)
      (getCol (heapLoad h15 rBP) "_block_id") (colQ (heapLoad h15 rBP) "_allocated_pop")
    let baseBlock := frameGroupSum2 (getCol (heapLoad h15 rBB) base_id)
      (getCol (heapLoad h15 rBB) "_block_id") (colQ (heapLoad h15 rBB) "_allocated_pop")
    let pairs : List ((FCell × FCell) × ℚ) :=
      pastBlock.flatMap (fun pb =>
        (baseBlock.filter (fun qb => decide (qb.1.2 = pb.1.2))).map
          (fun qb => ((pb.1.1, qb.1.1), min pb.2 qb.2)))
    let cw := (groupKeys pairs (fun t => t.1)).map
      (fun k => (k, groupSum pairs (fun t => t.1) (fun t => t.2) k))
    let fracs := cw.map (fun t =>
      t.2 / groupSum cw (fun u => u.1.1) (fun u => u.2) t.1.1)
    let outFrame : PyFrame :=
      { crs := "",
        cols := [(past_id, cw.map (fun t => t.1.1)), (base_id, cw.map (fun t => t.1.2)),
                 ("frac", fracs.map FCell.qv)] }
    (h15, Except.ok outFrame)

/-- Embedding of `build_crosswalk` at object level: validation (which
mutates nothing), then `past_gdf = past_gdf.copy(); base_gdf =
base_gdf.copy()` and the id normalization assigned to those copies, then
the weighted branch. -/
def build_crosswalk_heap (g : GeoOracle) (h : Heap) (rPast rBase : ℕ)
    (rBlocks : Option ℕ) (past_id base_id weight : String)
    (block_pop_field : Option String) (tol : ℚ) : Heap × Except String PyFrame :=
  if (heapLoad h rPast).crs ≠ (heapLoad h rBase).crs then (h, Except.error "CRS mismatch")
  else if past_id ∉ (heapLoad h rPast).cols.map Prod.fst then
    (h, Except.error "column not found in past_gdf")
  else if base_id ∉ (heapLoad h rBase).cols.map Prod.fst then
    (h, Except.error "column not found in base_gdf")
  else if weight ≠ "area" ∧ weight ≠ "pop" then (h, Except.error "Invalid weight method")
  else if weight = "pop" ∧ (rBlocks = none ∨ block_pop_field = none) then
    (h, Except.error "Population weighting requires blocks_gdf and block_pop_field")
  else
    let h1 := h ++ [heapLoad h rPast]
    let rP := h.length
    let h2 := h1 ++ [heapLoad h1 rBase]
    let rB := h1.length
    let h3 := heapStore h2 rP
      (setCol (heapLoad h2 rP) past_id (ensure_id_col (getCol (heapLoad h2 rP) past_id)))
    let h4 := heapStore h3 rB
      (setCol (heapLoad h3 rB) base_id (ensure_id_col (getCol (heapLoad h3 rB) base_id)))
    if weight = "area" then
      let out := area_branch_heap g h4 rP rB past_id base_id tol
      (out.1, Except.ok out.2)
    else
      pop_branch_heap g h4 rP rB ((rBlocks.getD 0)) past_id base_id
        ((block_pop_field.getD "")) tol

/-- Heap extension: every object that existed before is unchanged, and
the heap has only grown.  `build_crosswalk` extends the heap it is given
(its allocations) without mutating any pre-existing object. -/
def heapExt (h h' : Heap) : Prop :=
  h.length ≤ h'.length ∧ ∀ r < h.length, h'[r]? = h[r]?

/-! ## General lemmas: sums, grouping, rounding -/

theorem sum_map_div_const {α : Type} (l : List α) (f : α → ℚ) (c : ℚ) :
    (l.map (fun x => f x / c)).sum = (l.map f).sum / c := by
  induction l with
  | nil => simp
  | cons a t ih => simp [ih, add_div]

theorem sum_map_zero_q {α : Type} (l : List α) :
    (l.map (fun _ => (0 : ℚ))).sum = 0 := by
  induction l with
  | nil => simp
  | cons a t ih => simp [ih]

theorem sum_map_ite_insert {κ : Type} [DecidableEq κ] (K : List κ) (c : κ) (v : ℚ)
    (g : κ → ℚ) (hnd : K.Nodup) (hc : c ∈ K) :
    (K.map (fun k => if c = k then v + g k else g k)).sum = v + (K.map g).sum := by
  induction K with
  | nil => cases hc
  | cons k K' ih =>
    rcases List.nodup_cons.mp hnd with ⟨hk, hnd'⟩
    by_cases hck : c = k
    · subst hck
      have hcongr : ∀ x ∈ K', (if c = x then v + g x else g x) = g x := by
        intro x hx
        have : c ≠ x := fun h => hk (h ▸ hx)
        simp [this]
      simp only [List.map_cons, List.sum_cons]
      rw [List.map_congr_left hcongr]
      simp only [if_true, eq_self_iff_true]
      ring
    · have hc' : c ∈ K' := by
        rcases List.mem_cons.mp hc with h | h
        · exact absurd h hck
        · exact h
      simp only [List.map_cons, List.sum_cons, if_neg hck]
      rw [ih hnd' hc']
      ring

theorem groupSum_nil {α κ : Type} [DecidableEq κ] (key : α → κ) (f : α → ℚ) (k : κ) :
    groupSum ([] : List α) key f k = 0 := rfl

theorem groupSum_cons {α κ : Type} [DecidableEq κ] (a : α) (t : List α)
    (key : α → κ) (f : α → ℚ) (k : κ) :
    groupSum (a :: t) key f k =
      if key a = k then f a + groupSum t key f k else groupSum t key f k := by
  unfold groupSum
  rw [List.filter_cons]
  by_cases h : key a = k
  · simp [h]
  · simp [h]

theorem sum_over_keylist {α κ : Type} [DecidableEq κ] (l : List α) (key : α → κ)
    (f : α → ℚ) (K : List κ) (hnd : K.Nodup) (hcov : ∀ a ∈ l, key a ∈ K) :
    (K.map (fun k => groupSum l key f k)).sum = (l.map f).sum := by
  induction l with
  | nil => simp [groupSum_nil, sum_map_zero_q]
  | cons a t ih =>
    have hKa : key a ∈ K := hcov a (List.mem_cons_self a t)
    have hcov' : ∀ x ∈ t, key x ∈ K := fun x hx => hcov x (List.mem_cons_of_mem a hx)
    calc (K.map (fun k => groupSum (a :: t) key f k)).sum
        = (K.map (fun k => if key a = k then f a + groupSum t key f k
            else groupSum t key f k)).sum := by
          apply congrArg
          exact List.map_congr_left (fun k _ => groupSum_cons a t key f k)
      _ = f a + (K.map (fun k => groupSum t key f k)).sum :=
          sum_map_ite_insert K (key a) (f a) _ hnd hKa
      _ = f a + (t.map f).sum := by rw [ih hcov']
      _ = ((a :: t).map f).sum := by simp

theorem sum_fiberwise {α κ : Type} [DecidableEq κ] (l : List α) (key : α → κ)
    (f : α → ℚ) :
    ((groupKeys l key).map (fun k => groupSum l key f k)).sum = (l.map f).sum := by
  apply sum_over_keylist
  · exact List.nodup_dedup _
  · intro a ha
    unfold groupKeys
    exact List.mem_dedup.mpr (List.mem_map_of_mem key ha)

theorem sum_filter_eq_sum_ite {α : Type} (l : List α) (p : α → Bool) (f : α → ℚ) :
    ((l.filter p).map f).sum = (l.map (fun a => if p a then f a else 0)).sum := by
  induction l with
  | nil => simp
  | cons a t ih =>
    rw [List.filter_cons]
    by_cases h : p a
    · simp [h, ih]
    · simp [h, ih]

theorem list_sum_comm {α β : Type} (l1 : List α) (l2 : List β) (F : α → β → ℚ) :
    (l1.map (fun x => (l2.map (F x)).sum)).sum
      = (l2.map (fun y => (l1.map (fun x => F x y)).sum)).sum := by
  induction l1 with
  | nil => simp [sum_map_zero_q]
  | cons a t ih =>
    simp only [List.map_cons, List.sum_cons, ih]
    rw [← List.sum_map_add]

theorem fracSum_pos (rows : List CWRow) (p : String)
    (hpos : ∀ r ∈ rows, 0 < r.frac) (w : CWRow) (hw : w ∈ rows) (hwp : w.pastId = p) :
    0 < fracSumFor rows p := by
  have hwf : w ∈ rows.filter (fun r => decide (r.pastId = p)) :=
    List.mem_filter.mpr ⟨hw, by simp [hwp]⟩
  have hnonneg : ∀ x ∈ (rows.filter (fun r => decide (r.pastId = p))).map
      (fun r => r.frac), 0 ≤ x := by
    intro x hx
    rcases List.mem_map.mp hx with ⟨r, hr, rfl⟩
    exact le_of_lt (hpos r (List.mem_of_mem_filter hr))
  have hle : w.frac ≤ fracSumFor rows p :=
    List.single_le_sum hnonneg w.frac (List.mem_map_of_mem _ hwf)
  exact lt_of_lt_of_le (hpos w hw) hle

theorem npRound_sub_abs (x : ℚ) : |(npRound x : ℚ) - x| ≤ 1/2 := by
  unfold npRound
  by_cases h : Int.fract x = 1/2
  · have hfl : (⌊x⌋ : ℚ) = x - 1/2 := by
      have hf := Int.fract_add_floor x
      rw [h] at hf
      linarith
    by_cases he : (2 : ℤ) ∣ ⌊x⌋
    · rw [if_pos h, if_pos he]
      have heq : (⌊x⌋ : ℚ) - x = -(1/2) := by rw [hfl]; ring
      rw [heq, abs_neg, abs_of_nonneg (by norm_num : (0:ℚ) ≤ 1/2)]
    · rw [if_pos h, if_neg he]
      have heq : ((⌊x⌋ + 1 : ℤ) : ℚ) - x = 1/2 := by push_cast; rw [hfl]; ring
      rw [heq, abs_of_nonneg (by norm_num : (0:ℚ) ≤ 1/2)]
  · rw [if_neg h]
    rw [abs_sub_comm]
    exact abs_sub_round x

theorem npRound_le_add_half (x : ℚ) : (npRound x : ℚ) ≤ x + 1/2 := by
  have := npRound_sub_abs x
  rw [abs_le] at this
  linarith [this.2]

theorem npRound_ge_sub_half (x : ℚ) : x - 1/2 ≤ (npRound x : ℚ) := by
  have := npRound_sub_abs x
  rw [abs_le] at this
  linarith [this.1]

theorem npRound_mono {x y : ℚ} (h : x ≤ y) : npRound x ≤ npRound y := by
  rcases eq_or_lt_of_le h with rfl | hlt
  · exact le_refl _
  · have h1 : (npRound x : ℚ) < (npRound y : ℚ) + 1 := by
      have := npRound_le_add_half x
      have := npRound_ge_sub_half y
      linarith
    have h2 : npRound x < npRound y + 1 := by exact_mod_cast h1
    omega

theorem npRound_zero : npRound 0 = 0 := by
  unfold npRound
  norm_num [Int.fract_zero]

theorem sum_npRound_bound {κ : Type} (ks : List κ) (f : κ → ℚ) :
    |(ks.map (fun k => (npRound (f k) : ℚ))).sum - (ks.map f).sum|
      ≤ (ks.length : ℚ) / 2 := by
  induction ks with
  | nil => simp
  | cons a t ih =>
    simp only [List.map_cons, List.sum_cons, List.length_cons]
    have h1 : |(npRound (f a) : ℚ) - f a| ≤ 1/2 := npRound_sub_abs (f a)
    have htr : ((npRound (f a) : ℚ) + (t.map (fun k => (npRound (f k) : ℚ))).sum)
        - (f a + (t.map f).sum)
        = ((npRound (f a) : ℚ) - f a)
          + ((t.map (fun k => (npRound (f k) : ℚ))).sum - (t.map f).sum) := by ring
    rw [htr]
    calc |((npRound (f a) : ℚ) - f a)
          + ((t.map (fun k => (npRound (f k) : ℚ))).sum - (t.map f).sum)|
        ≤ |(npRound (f a) : ℚ) - f a|
          + |(t.map (fun k => (npRound (f k) : ℚ))).sum - (t.map f).sum| := abs_add _ _
      _ ≤ 1/2 + (t.length : ℚ) / 2 := add_le_add h1 ih
      _ = ((t.length : ℚ) + 1) / 2 := by ring
      _ = (((t.length + 1 : ℕ)) : ℚ) / 2 := by push_cast; ring

/-! ## Properties of the crosswalk cores -/

theorem area_crosswalk_props (overlay : List OverlayRow) (tol : ℚ) (Htol : 0 ≤ tol)
    (Hgeom : ∀ r ∈ overlay, 0 ≤ r.intersectArea ∧ r.intersectArea ≤ r.origArea) :
    ∀ p ∈ (area_crosswalk_from_overlay overlay tol).map (fun r => r.pastId),
      fracSumFor (area_crosswalk_from_overlay overlay tol) p = 1 ∧
      ∀ r ∈ area_crosswalk_from_overlay overlay tol, r.pastId = p →
        0 < r.frac ∧ r.frac ≤ 1 := by
  intro p hp
  set kept := overlay.filter (fun r => decide (tol < r.intersectArea)) with hkept
  set wf := kept.map (fun r : OverlayRow =>
    ({ pastId := r.pastId, baseId := r.baseId,
       frac := r.intersectArea / r.origArea } : CWRow)) with hwf
  have hA : area_crosswalk_from_overlay overlay tol
      = wf.map (fun r => { r with frac := r.frac / fracSumFor wf r.pastId }) := rfl
  have hposwf : ∀ w ∈ wf, 0 < w.frac := by
    intro w hw
    rcases List.mem_map.mp hw with ⟨r, hr, rfl⟩
    have hrk := List.mem_filter.mp hr
    have hlt : tol < r.intersectArea := of_decide_eq_true hrk.2
    have hbounds := Hgeom r hrk.1
    have hapos : 0 < r.intersectArea := lt_of_le_of_lt Htol hlt
    have hAp : 0 < r.origArea := lt_of_lt_of_le hapos hbounds.2
    exact div_pos hapos hAp
  rcases List.mem_map.mp hp with ⟨q, hq, hqp⟩
  rw [hA] at hq
  rcases List.mem_map.mp hq with ⟨w, hw, hwq⟩
  have hwp : w.pastId = p := by rw [← hqp, ← hwq]
  have hS : 0 < fracSumFor wf p := fracSum_pos wf p hposwf w hw hwp
  have hfilter : (area_crosswalk_from_overlay overlay tol).filter
        (fun r => decide (r.pastId = p))
      = (wf.filter (fun r => decide (r.pastId = p))).map
        (fun r => { r with frac := r.frac / fracSumFor wf r.pastId }) := by
    rw [hA, List.filter_map]
    rfl
  have hmemp : ∀ r ∈ wf.filter (fun r => decide (r.pastId = p)), r.pastId = p := by
    intro r hr
    exact of_decide_eq_true (List.mem_filter.mp hr).2
  constructor
  · unfold fracSumFor
    rw [hfilter, List.map_map]
    have hcongr : ∀ r ∈ wf.filter (fun r => decide (r.pastId = p)),
        ((fun r : CWRow => r.frac) ∘ fun r : CWRow =>
          { r with frac := r.frac / fracSumFor wf r.pastId }) r
        = (fun r : CWRow => r.frac / fracSumFor wf p) r := by
      intro r hr
      simp only [Function.comp]
      rw [hmemp r hr]
    rw [List.map_congr_left hcongr, sum_map_div_const]
    have hsum : ((wf.filter (fun r => decide (r.pastId = p))).map
        (fun r : CWRow => r.frac)).sum = fracSumFor wf p := rfl
    rw [hsum]
    exact div_self (ne_of_gt hS)
  · intro r hr hrp
    rw [hA] at hr
    rcases List.mem_map.mp hr with ⟨w', hw', hw'r⟩
    have hw'p : w'.pastId = p := by
      have : ({ w' with frac := w'.frac / fracSumFor wf w'.pastId } : CWRow).pastId
          = w'.pastId := rfl
      rw [← hrp, ← hw'r]
    have hfr : r.frac = w'.frac / fracSumFor wf p := by
      rw [← hw'r]
      simp only []
      rw [hw'p]
    have hw'f : w' ∈ wf.filter (fun r => decide (r.pastId = p)) :=
      List.mem_filter.mpr ⟨hw', by simp [hw'p]⟩
    have hle : w'.frac ≤ fracSumFor wf p := by
      apply List.single_le_sum
      · intro x hx
        rcases List.mem_map.mp hx with ⟨y, hy, rfl⟩
        exact le_of_lt (hposwf y (List.mem_of_mem_filter hy))
      · exact List.mem_map_of_mem _ hw'f
    constructor
    · rw [hfr]
      exact div_pos (hposwf w' hw') hS
    · rw [hfr]
      exact (div_le_one hS).mpr hle

theorem groupSum_nonneg {α κ : Type} [DecidableEq κ] (l : List α) (key : α → κ)
    (f : α → ℚ) (k : κ) (h : ∀ a ∈ l, 0 ≤ f a) : 0 ≤ groupSum l key f k := by
  unfold groupSum
  apply List.sum_nonneg
  intro x hx
  rcases List.mem_map.mp hx with ⟨a, ha, rfl⟩
  exact h a (List.mem_of_mem_filter ha)

theorem allocatedPop_nonneg (blocks : List BlockRec) (r : BlockOverlayRow)
    (hr : 0 ≤ r.intersectArea)
    (Hpop : ∀ b ∈ blocks, 0 ≤ toNumericFillnaZero b.popCell)
    (Hba : ∀ b ∈ blocks, 0 ≤ b.area) : 0 ≤ allocatedPop blocks r := by
  unfold allocatedPop
  apply mul_nonneg
  · unfold blockPop
    cases hg : blocks.get? r.blockIdx with
    | none => exact le_refl 0
    | some b => exact Hpop b (List.get?_mem hg)
  · apply div_nonneg hr
    unfold blockArea
    cases hg : blocks.get? r.blockIdx with
    | none => exact le_refl 0
    | some b => exact Hba b (List.get?_mem hg)

theorem population_pair_flows_nonneg (blocks : List BlockRec)
    (bp bb : List BlockOverlayRow) (tol : ℚ)
    (Hp : ∀ r ∈ bp, 0 ≤ r.intersectArea)
    (Hb : ∀ r ∈ bb, 0 ≤ r.intersectArea)
    (Hpop : ∀ b ∈ blocks, 0 ≤ toNumericFillnaZero b.popCell)
    (Hba : ∀ b ∈ blocks, 0 ≤ b.area) :
    ∀ t ∈ population_pair_flows blocks bp bb tol, 0 ≤ t.2.2 := by
  intro t ht
  rcases List.mem_map.mp ht with ⟨k, _, rfl⟩
  apply groupSum_nonneg
  intro pr hpr
  rcases List.mem_flatMap.mp hpr with ⟨pb, hpb, hin⟩
  rcases List.mem_map.mp hin with ⟨qb, hqb, rfl⟩
  have hpbv : 0 ≤ pb.2.2 := by
    rcases List.mem_map.mp hpb with ⟨k1, _, rfl⟩
    apply groupSum_nonneg
    intro a ha
    exact allocatedPop_nonneg blocks a (Hp a (List.mem_of_mem_filter ha)) Hpop Hba
  have hqbv : 0 ≤ qb.2.2 := by
    rcases List.mem_map.mp (List.mem_of_mem_filter hqb) with ⟨k1, _, rfl⟩
    apply groupSum_nonneg
    intro a ha
    exact allocatedPop_nonneg blocks a (Hb a (List.mem_of_mem_filter ha)) Hpop Hba
  exact le_min hpbv hqbv

theorem population_crosswalk_props (blocks : List BlockRec)
    (bp bb : List BlockOverlayRow) (tol : ℚ)
    (Hp : ∀ r ∈ bp, 0 ≤ r.intersectArea)
    (Hb : ∀ r ∈ bb, 0 ≤ r.intersectArea)
    (Hpop : ∀ b ∈ blocks, 0 ≤ toNumericFillnaZero b.popCell)
    (Hba : ∀ b ∈ blocks, 0 ≤ b.area) :
    ∀ p : String,
      0 < groupSum (population_pair_flows blocks bp bb tol) (fun u => u.1)
          (fun u => u.2.2) p →
      fracSumFor (population_crosswalk_from_overlays blocks bp bb tol) p = 1 ∧
      ∀ r ∈ population_crosswalk_from_overlays blocks bp bb tol, r.pastId = p →
        0 ≤ r.frac ∧ r.frac ≤ 1 := by
  intro p hT
  set flows := population_pair_flows blocks bp bb tol with hflows
  have hA : population_crosswalk_from_overlays blocks bp bb tol
      = flows.map (fun t =>
          ({ pastId := t.1, baseId := t.2.1,
             frac := t.2.2 / groupSum flows (fun u => u.1)
               (fun u => u.2.2) t.1 } : CWRow)) := rfl
  have hnn : ∀ t ∈ flows, 0 ≤ t.2.2 :=
    population_pair_flows_nonneg blocks bp bb tol Hp Hb Hpop Hba
  have hfilter : (population_crosswalk_from_overlays blocks bp bb tol).filter
        (fun r => decide (r.pastId = p))
      = (flows.filter (fun t => decide (t.1 = p))).map
        (fun t =>
          ({ pastId := t.1, baseId := t.2.1,
             frac := t.2.2 / groupSum flows (fun u => u.1)
               (fun u => u.2.2) t.1 } : CWRow)) := by
    rw [hA, List.filter_map]
    rfl
  have hmemp : ∀ t ∈ flows.filter (fun t => decide (t.1 = p)), t.1 = p := by
    intro t ht
    exact of_decide_eq_true (List.mem_filter.mp ht).2
  have hsumval : ((flows.filter (fun t => decide (t.1 = p))).map
      (fun t => t.2.2)).sum = groupSum flows (fun u => u.1) (fun u => u.2.2) p := rfl
  constructor
  · unfold fracSumFor
    rw [hfilter, List.map_map]
    have hcongr : ∀ t ∈ flows.filter (fun t => decide (t.1 = p)),
        ((fun r : CWRow => r.frac) ∘ fun t : String × String × ℚ =>
            ({ pastId := t.1, baseId := t.2.1,
               frac := t.2.2 / groupSum flows (fun u => u.1)
                 (fun u => u.2.2) t.1 } : CWRow)) t
        = (fun t : String × String × ℚ =>
            t.2.2 / groupSum flows (fun u => u.1) (fun u => u.2.2) p) t := by
      intro t ht
      simp only [Function.comp]
      rw [hmemp t ht]
    rw [List.map_congr_left hcongr, sum_map_div_const, hsumval]
    exact div_self (ne_of_gt hT)
  · intro r hr hrp
    rw [hA] at hr
    rcases List.mem_map.mp hr with ⟨t, ht, htr⟩
    have htp : t.1 = p := by rw [← hrp, ← htr]
    have hfr : r.frac = t.2.2 / groupSum flows (fun u => u.1) (fun u => u.2.2) p := by
      rw [← htr]
      simp only []
      rw [htp]
    have htf : t ∈ flows.filter (fun t => decide (t.1 = p)) :=
      List.mem_filter.mpr ⟨ht, by simp [htp]⟩
    have hle : t.2.2 ≤ groupSum flows (fun u => u.1) (fun u => u.2.2) p := by
      rw [← hsumval]
      apply List.single_le_sum
      · intro x hx
        rcases List.mem_map.mp hx with ⟨y, hy, rfl⟩
        exact hnn y (List.mem_of_mem_filter hy)
      · exact List.mem_map_of_mem _ htf
    constructor
    · rw [hfr]
      exact div_nonneg (hnn t ht) (le_of_lt hT)
    · rw [hfr]
      exact (div_le_one hT).mpr hle

/-! ## Claim C1 -/

/-- C1 (amended): for every crosswalk produced by `build_crosswalk` and
every past polygon appearing in it, under the geometric facts about the
oracle overlays (non-negative intersection areas contained in their source
polygons) and non-negative block populations: with area weighting the
`frac` values of that past polygon sum to exactly 1 after renormalization
and each lies in (0, 1]; with population weighting, provided the past
polygon's total population flow is positive, they sum to exactly 1 and
each lies in [0, 1] — a `frac` of exactly 0 can occur (zero-population
blocks), so (0, 1] does not hold there. -/
theorem build_crosswalk_frac_normalization
    (past base : GFrame) (past_id base_id weight : String)
    (blocks : Option GFrame) (block_pop_field : Option String)
    (area_overlay : List OverlayRow) (blocks_data : List BlockRec)
    (bp bb : List BlockOverlayRow) (tol : ℚ) (cwk : List CWRow)
    (Htol : 0 ≤ tol)
    (Hov : ∀ r ∈ area_overlay, 0 ≤ r.intersectArea ∧ r.intersectArea ≤ r.origArea)
    (Hbp : ∀ r ∈ bp, 0 ≤ r.intersectArea)
    (Hbb : ∀ r ∈ bb, 0 ≤ r.intersectArea)
    (Hpop : ∀ b ∈ blocks_data, 0 ≤ toNumericFillnaZero b.popCell)
    (Hba : ∀ b ∈ blocks_data, 0 ≤ b.area)
    (Hok : build_crosswalk past base past_id base_id weight blocks block_pop_field
        area_overlay blocks_data bp bb tol = Except.ok cwk) :
    ∀ p ∈ cwk.map (fun r => r.pastId),
      (weight = "area" →
        fracSumFor cwk p = 1 ∧ ∀ r ∈ cwk, r.pastId = p → 0 < r.frac ∧ r.frac ≤ 1)
      ∧ (weight = "pop" →
          0 < groupSum (population_pair_flows blocks_data bp bb tol)
              (fun u => u.1) (fun u => u.2.2) p →
          fracSumFor cwk p = 1 ∧
            ∀ r ∈ cwk, r.pastId = p → 0 ≤ r.frac ∧ r.frac ≤ 1) := by
  intro p hp
  unfold build_crosswalk at Hok
  constructor
  · intro hwa
    subst hwa
    split at Hok
    · exact absurd Hok (by simp)
    split at Hok
    · exact absurd Hok (by simp)
    split at Hok
    · exact absurd Hok (by simp)
    split at Hok
    · exact absurd Hok (by simp)
    split at Hok
    · exact absurd Hok (by simp)
    split at Hok
    case isTrue =>
      rw [Except.ok.injEq] at Hok
      subst Hok
      exact area_crosswalk_props area_overlay tol Htol Hov p hp
    case isFalse h =>
      exact absurd rfl h
  · intro hwp hT
    subst hwp
    split at Hok
    · exact absurd Hok (by simp)
    split at Hok
    · exact absurd Hok (by simp)
    split at Hok
    · exact absurd Hok (by simp)
    split at Hok
    · exact absurd Hok (by simp)
    split at Hok
    · exact absurd Hok (by simp)
    split at Hok
    case isTrue h =>
      exact absurd h (by simp)
    case isFalse =>
      split at Hok
      · exact absurd Hok (by simp)
      split at Hok
      · exact absurd Hok (by simp)
      split at Hok
      · exact absurd Hok (by simp)
      rw [Except.ok.injEq] at Hok
      subst Hok
      exact population_crosswalk_props blocks_data bp bb tol Hbp Hbb Hpop Hba p hT

/-- C1 (counterexample to the claim as stated): a population-weighted
crosswalk built by `build_crosswalk` contains a row with `frac = 0`,
outside (0, 1].  Block 0 (population 100) lies inside past P and base R;
block 1 (population 0) lies inside past P and base Q; the pair (P, Q)
gets flow `min 0 0 = 0` and `frac = 0 / 100 = 0`. -/
theorem build_crosswalk_pop_zero_frac_cex :
    build_crosswalk ⟨"EPSG:3734", ["PID"]⟩ ⟨"EPSG:3734", ["BID"]⟩ "PID" "BID" "pop"
        (some ⟨"EPSG:3734", ["GEOID20", "POP20"]⟩) (some "POP20") []
        [⟨Cell.num 100, 1⟩, ⟨Cell.num 0, 1⟩]
        [⟨0, "P", 1⟩, ⟨1, "P", 1⟩] [⟨0, "R", 1⟩, ⟨1, "Q", 1⟩] 0
      = Except.ok [⟨"P", "R", 1⟩, ⟨"P", "Q", 0⟩]
    ∧ ¬(0 < (0 : ℚ)) := by
  constructor
  · rw [build_crosswalk, if_neg (by decide), if_neg (by decide), if_neg (by decide),
      if_neg (by decide), if_neg (by decide), if_neg (by decide)]
    show (if ("EPSG:3734" : String) ≠ "EPSG:3734" then
        Except.error "CRS mismatch"
      else if ("EPSG:3734" : String) ≠ "EPSG:3734" then
        Except.error "CRS mismatch"
      else Except.ok (population_crosswalk_from_overlays
        [⟨Cell.num 100, 1⟩, ⟨Cell.num 0, 1⟩]
        [⟨0, "P", 1⟩, ⟨1, "P", 1⟩] [⟨0, "R", 1⟩, ⟨1, "Q", 1⟩] 0)) = _
    rw [if_neg (by decide), if_neg (by decide)]
    refine congrArg Except.ok ?_
    have hd : ([("P", "R"), ("P", "Q")] : List (String × String)).dedup
        = [("P", "R"), ("P", "Q")] := by
      rw [List.dedup_cons_of_not_mem (by decide), List.dedup_cons_of_not_mem
        (by decide), List.dedup_nil]
    norm_num [population_crosswalk_from_overlays, population_pair_flows, groupKeys,
      groupSum, allocatedPop, blockPop, blockArea, toNumericFillnaZero, toNumericCoerce,
      List.filter_cons, List.dedup_cons_of_mem, List.dedup_cons_of_not_mem, min_self, hd]
    simp only [if_neg (show ("Q" : String) ≠ "R" from by decide),
      if_neg (show ("R" : String) ≠ "Q" from by decide)]
    norm_num
  · norm_num

/-- C1 (witness): the area-weighted crosswalk of one past polygon split
60/40 over two base polygons has renormalized fractions summing to
exactly 1. -/
theorem build_crosswalk_frac_normalization_witness :
    fracSumFor (area_crosswalk_from_overlay
        [⟨"P1", "B1", 50, 30⟩, ⟨"P1", "B2", 50, 20⟩] 0) "P1" = 1 := by
  have h := build_crosswalk_frac_normalization ⟨"EPSG:3734", ["PID"]⟩
    ⟨"EPSG:3734", ["BID"]⟩ "PID" "BID" "area" none none
    [⟨"P1", "B1", 50, 30⟩, ⟨"P1", "B2", 50, 20⟩] [] [] [] 0
    (area_crosswalk_from_overlay [⟨"P1", "B1", 50, 30⟩, ⟨"P1", "B2", 50, 20⟩] 0)
    (le_refl 0)
    (by intro r hr
        simp only [List.mem_cons, List.not_mem_nil, or_false] at hr
        rcases hr with rfl | rfl <;> norm_num)
    (by simp) (by simp) (by simp) (by simp) rfl
  exact ((h "P1" (by norm_num [area_crosswalk_from_overlay, fracSumFor,
    List.filter_cons])).1 rfl).1

/-! ## Claim C6 -/

/-- C6: for every pair of polygon collections whose CRS differ,
`build_crosswalk` raises a CRS-mismatch error (the `ensure_crs_match`
check runs before anything else) and returns no crosswalk. -/
theorem build_crosswalk_crs_mismatch
    (past base : GFrame) (past_id base_id weight : String)
    (blocks : Option GFrame) (block_pop_field : Option String)
    (area_overlay : List OverlayRow) (blocks_data : List BlockRec)
    (bp bb : List BlockOverlayRow) (tol : ℚ)
    (h : past.crs ≠ base.crs) :
    build_crosswalk past base past_id base_id weight blocks block_pop_field
        area_overlay blocks_data bp bb tol = Except.error "CRS mismatch" := by
  unfold build_crosswalk
  rw [if_pos h]

/-- C6 (witness): two concrete collections in EPSG:4326 and EPSG:3734 are
rejected with the CRS-mismatch error. -/
theorem build_crosswalk_crs_mismatch_witness :
    build_crosswalk ⟨"EPSG:4326", ["PREC_ID"]⟩ ⟨"EPSG:3734", ["PREC_ID"]⟩
        "PREC_ID" "PREC_ID" "area" none none [] [] [] [] 0
      = Except.error "CRS mismatch" :=
  build_crosswalk_crs_mismatch _ _ _ _ _ _ _ _ _ _ _ _ (by decide)

/-! ## Claim C5 -/

/-- C5 (counterexample to the claim as stated): a harmonization run
requested with `weight="pop"` and no census-blocks collection configured
does not fail — `reallocate_votes_to_base` logs a warning and silently
proceeds with area weighting. -/
theorem pop_weight_fallback_cex :
    reallocate_weight_outcome "pop" ⟨none, some "POP20"⟩
      = WeightOutcome.proceeds "area" := rfl

/-- C5 (amended): `build_crosswalk` itself does fail with a validation
error when population weighting is requested without blocks or without
the population field; but `reallocate_votes_to_base` falls back to area
weighting (with a warning) whenever no blocks path is configured, and
only fails when a blocks path is configured while the population field is
missing. -/
theorem pop_weight_validation :
    (∀ (past base : GFrame) (past_id base_id : String) (blocks : Option GFrame)
        (bpf : Option String) (ao : List OverlayRow) (bd : List BlockRec)
        (bp bb : List BlockOverlayRow) (tol : ℚ),
      past.crs = base.crs → past_id ∈ past.columns → base_id ∈ base.columns →
      (blocks = none ∨ bpf = none) →
      build_crosswalk past base past_id base_id "pop" blocks bpf ao bd bp bb tol
        = Except.error "Population weighting requires blocks_gdf and block_pop_field")
    ∧ (∀ wcfg : WeightsConfig, wcfg.blocks_gpkg = none →
        reallocate_weight_outcome "pop" wcfg = WeightOutcome.proceeds "area")
    ∧ (∀ path : String,
        reallocate_weight_outcome "pop" ⟨some path, none⟩
          = WeightOutcome.fails
              "Population weighting requires blocks_gdf and block_pop_field") := by
  refine ⟨?_, ?_, ?_⟩
  · intro past base past_id base_id blocks bpf ao bd bp bb tol hcrs hpc hbc hmiss
    unfold build_crosswalk
    rw [if_neg (not_not_intro hcrs), if_neg (not_not_intro hpc),
      if_neg (not_not_intro hbc), if_neg (by decide), if_pos ⟨rfl, hmiss⟩]
  · intro wcfg h
    obtain ⟨bg, bpf⟩ := wcfg
    have : bg = none := h
    subst this
    rfl
  · intro path
    rfl

/-! ## Claim C2 -/

theorem sum_map_flatMap {α β : Type} (l : List α) (g : α → List β) (f : β → ℚ) :
    ((l.flatMap g).map f).sum = (l.map (fun c => ((g c).map f).sum)).sum := by
  induction l with
  | nil => simp
  | cons a t ih => simp [ih]

theorem ite_flip_eq (a b : String) (x : ℚ) :
    (if decide (a = b) = true then x else 0)
      = (if decide (b = a) = true then x else 0) := by
  by_cases h : a = b
  · simp [h]
  · simp [h, Ne.symm h]

theorem merged_field_sum (cw : List CWRow) (res : List ResRow)
    (v : ResRow → ℚ) (mf : AllocRow → ℚ)
    (hfill : ∀ c : CWRow,
      mf { pastId := c.pastId, baseId := c.baseId, frac := c.frac,
           D_votes := 0, R_votes := 0, total := 0 } = 0)
    (hmatch : ∀ (c : CWRow) (r : ResRow),
      mf { pastId := c.pastId, baseId := c.baseId, frac := c.frac,
           D_votes := (r.D_votes : ℚ), R_votes := (r.R_votes : ℚ),
           total := (r.total : ℚ) } = v r * c.frac) :
    ((merge_crosswalk_results cw res).map mf).sum
      = (res.map (fun r => v r * fracSumFor cw r.precinct_id)).sum := by
  unfold merge_crosswalk_results
  rw [sum_map_flatMap]
  have step1 : ∀ c ∈ cw,
      ((if (res.filter (fun r => decide (r.precinct_id = c.pastId))).isEmpty then
          [({ pastId := c.pastId, baseId := c.baseId, frac := c.frac,
              D_votes := 0, R_votes := 0, total := 0 } : AllocRow)]
        else (res.filter (fun r => decide (r.precinct_id = c.pastId))).map
          (fun r => { pastId := c.pastId, baseId := c.baseId, frac := c.frac,
                      D_votes := (r.D_votes : ℚ), R_votes := (r.R_votes : ℚ),
                      total := (r.total : ℚ) })).map mf).sum
      = ((res.filter (fun r => decide (r.precinct_id = c.pastId))).map
          (fun r => v r * c.frac)).sum := by
    intro c _
    by_cases he : (res.filter (fun r => decide (r.precinct_id = c.pastId))).isEmpty
    · rw [if_pos he]
      rw [List.isEmpty_iff] at he
      rw [he]
      simp [hfill c]
    · rw [if_neg he, List.map_map]
      refine congrArg List.sum ?_
      apply List.map_congr_left
      intro r _
      simp only [Function.comp]
      exact hmatch c r
  refine Eq.trans (congrArg List.sum (List.map_congr_left step1)) ?_
  have step2 : ∀ c ∈ cw,
      ((res.filter (fun r => decide (r.precinct_id = c.pastId))).map
        (fun r => v r * c.frac)).sum
      = (res.map (fun r =>
          if decide (r.precinct_id = c.pastId) = true then v r * c.frac else 0)).sum := by
    intro c _
    exact sum_filter_eq_sum_ite res _ _
  refine Eq.trans (congrArg List.sum (List.map_congr_left step2)) ?_
  rw [list_sum_comm cw res
    (fun c r => if decide (r.precinct_id = c.pastId) = true then v r * c.frac else 0)]
  refine congrArg List.sum (List.map_congr_left ?_)
  intro r _
  have hinner : ∀ c ∈ cw,
      (if decide (r.precinct_id = c.pastId) = true then v r * c.frac else 0)
      = v r * (if decide (c.pastId = r.precinct_id) = true then c.frac else 0) := by
    intro c _
    rw [ite_flip_eq]
    by_cases h : decide (c.pastId = r.precinct_id) = true
    · rw [if_pos h, if_pos h]
    · rw [if_neg h, if_neg h, mul_zero]
  refine Eq.trans (congrArg List.sum (List.map_congr_left hinner)) ?_
  rw [List.sum_map_mul_left]
  refine congrArg (fun z => v r * z) ?_
  rw [← sum_filter_eq_sum_ite cw (fun c => decide (c.pastId = r.precinct_id))
    (fun c => c.frac)]
  rfl

/-- C2: for every harmonization run whose crosswalk gives every results
precinct a frac sum of exactly 1 (which holds when every precinct of the
results table appears in a renormalized crosswalk), the sums of
harmonized `D_votes` and `R_votes` over all base polygons differ from the
original results' sums by at most 0.5 per base polygon — at most
`n_base / 2` in total, a bounded rounding error, not an unbounded one. -/
theorem reallocate_vote_conservation_bound (cw : List CWRow) (res : List ResRow)
    (year : String)
    (Hfrac : ∀ r ∈ res, fracSumFor cw r.precinct_id = 1) :
    |((harmonized_table cw res year).map (fun h => (h.D_votes : ℚ))).sum
        - (res.map (fun r => (r.D_votes : ℚ))).sum|
      ≤ ((harmonized_table cw res year).length : ℚ) / 2
    ∧ |((harmonized_table cw res year).map (fun h => (h.R_votes : ℚ))).sum
        - (res.map (fun r => (r.R_votes : ℚ))).sum|
      ≤ ((harmonized_table cw res year).length : ℚ) / 2 := by
  have hlen : (harmonized_table cw res year).length
      = (groupKeys (merge_crosswalk_results cw res) (fun a => a.baseId)).length := by
    unfold harmonized_table
    rw [List.length_map]
  have hD : ((harmonized_table cw res year).map (fun h => (h.D_votes : ℚ)))
      = ((groupKeys (merge_crosswalk_results cw res) (fun a => a.baseId)).map
          (fun b => (npRound (groupSum (merge_crosswalk_results cw res)
            (fun a => a.baseId) (fun a => a.D_votes * a.frac) b) : ℚ))) := by
    unfold harmonized_table
    rw [List.map_map]
    rfl
  have hR : ((harmonized_table cw res year).map (fun h => (h.R_votes : ℚ)))
      = ((groupKeys (merge_crosswalk_results cw res) (fun a => a.baseId)).map
          (fun b => (npRound (groupSum (merge_crosswalk_results cw res)
            (fun a => a.baseId) (fun a => a.R_votes * a.frac) b) : ℚ))) := by
    unfold harmonized_table
    rw [List.map_map]
    rfl
  have hpreD : ((groupKeys (merge_crosswalk_results cw res) (fun a => a.baseId)).map
        (fun b => groupSum (merge_crosswalk_results cw res) (fun a => a.baseId)
          (fun a => a.D_votes * a.frac) b)).sum
      = (res.map (fun r => (r.D_votes : ℚ))).sum := by
    rw [sum_fiberwise]
    rw [merged_field_sum cw res (fun r => (r.D_votes : ℚ)) (fun a => a.D_votes * a.frac)
      (fun c => by simp) (fun c r => rfl)]
    refine congrArg List.sum (List.map_congr_left ?_)
    intro r hr
    rw [Hfrac r hr, mul_one]
  have hpreR : ((groupKeys (merge_crosswalk_results cw res) (fun a => a.baseId)).map
        (fun b => groupSum (merge_crosswalk_results cw res) (fun a => a.baseId)
          (fun a => a.R_votes * a.frac) b)).sum
      = (res.map (fun r => (r.R_votes : ℚ))).sum := by
    rw [sum_fiberwise]
    rw [merged_field_sum cw res (fun r => (r.R_votes : ℚ)) (fun a => a.R_votes * a.frac)
      (fun c => by simp) (fun c r => rfl)]
    refine congrArg List.sum (List.map_congr_left ?_)
    intro r hr
    rw [Hfrac r hr, mul_one]
  constructor
  · rw [hD, hlen, ← hpreD]
    exact sum_npRound_bound _ _
  · rw [hR, hlen, ← hpreR]
    exact sum_npRound_bound _ _

/-- C2 (witness): one precinct split 50/50 over two base polygons, with
13 D votes and 7 R votes; the rounded harmonized sums differ from the
original sums by at most 1 (= 2 base polygons × 0.5). -/
theorem reallocate_vote_conservation_bound_witness :
    |((harmonized_table [⟨"P1", "B1", 1/2⟩, ⟨"P1", "B2", 1/2⟩]
          [⟨"P1", 13, 7, 20⟩] "2020").map (fun h => (h.D_votes : ℚ))).sum
        - (([⟨"P1", 13, 7, 20⟩] : List ResRow).map (fun r => (r.D_votes : ℚ))).sum|
      ≤ ((harmonized_table [⟨"P1", "B1", 1/2⟩, ⟨"P1", "B2", 1/2⟩]
          [⟨"P1", 13, 7, 20⟩] "2020").length : ℚ) / 2 :=
  (reallocate_vote_conservation_bound [⟨"P1", "B1", 1/2⟩, ⟨"P1", "B2", 1/2⟩]
    [⟨"P1", 13, 7, 20⟩] "2020"
    (by
      intro r hr
      simp only [List.mem_singleton] at hr
      subst hr
      norm_num [fracSumFor, List.filter_cons])).1

/-! ## Claim C3 -/

theorem groupSum_add_split {α κ : Type} [DecidableEq κ] (l : List α) (key : α → κ)
    (f g g' : α → ℚ) (k : κ) (h : ∀ a ∈ l, f a = g a + g' a) :
    groupSum l key f k = groupSum l key g k + groupSum l key g' k := by
  unfold groupSum
  rw [← List.sum_map_add]
  refine congrArg List.sum (List.map_congr_left ?_)
  intro a ha
  exact h a (List.mem_of_mem_filter ha)

theorem merged_rows_props (cw : List CWRow) (res : List ResRow)
    (Hres : ∀ r ∈ res, 0 ≤ r.D_votes ∧ 0 ≤ r.R_votes ∧ r.total = r.D_votes + r.R_votes)
    (Hfrac : ∀ c ∈ cw, 0 ≤ c.frac) :
    ∀ a ∈ merge_crosswalk_results cw res,
      0 ≤ a.frac ∧ 0 ≤ a.D_votes ∧ 0 ≤ a.R_votes ∧ a.total = a.D_votes + a.R_votes := by
  intro a ha
  unfold merge_crosswalk_results at ha
  rcases List.mem_flatMap.mp ha with ⟨c, hc, hin⟩
  by_cases he : (res.filter (fun r => decide (r.precinct_id = c.pastId))).isEmpty
  · rw [if_pos he] at hin
    rcases List.mem_singleton.mp hin with rfl
    exact ⟨Hfrac c hc, le_refl 0, le_refl 0, by norm_num⟩
  · rw [if_neg he] at hin
    rcases List.mem_map.mp hin with ⟨r, hrf, rfl⟩
    have hr := Hres r (List.mem_of_mem_filter hrf)
    refine ⟨Hfrac c hc,
      by show (0 : ℚ) ≤ (r.D_votes : ℚ); exact_mod_cast hr.1,
      by show (0 : ℚ) ≤ (r.R_votes : ℚ); exact_mod_cast hr.2.1, ?_⟩
    show (r.total : ℚ) = (r.D_votes : ℚ) + (r.R_votes : ℚ)
    exact_mod_cast hr.2.2

/-- C3: every record of the harmonized table (and of the geometry-joined,
zero-filled table) has a finite `D_share`: `0 ≤ D_share ≤ 1` always, and
`D_share = 0` whenever `total = 0` — never NaN, an infinity, or a value
outside [0, 1]. -/
theorem harmonized_d_share_bounds (base_ids : List String) (cw : List CWRow)
    (res : List ResRow) (year : String)
    (Hres : ∀ r ∈ res, 0 ≤ r.D_votes ∧ 0 ≤ r.R_votes ∧ r.total = r.D_votes + r.R_votes)
    (Hfrac : ∀ c ∈ cw, 0 ≤ c.frac) :
    (∀ h ∈ harmonized_table cw res year,
      ∃ s, h.D_share = some s ∧ 0 ≤ s ∧ s ≤ 1 ∧ (h.total = 0 → s = 0))
    ∧ (∀ h ∈ harmonized_gdf base_ids cw res year,
      ∃ s, h.D_share = some s ∧ 0 ≤ s ∧ s ≤ 1 ∧ (h.total = 0 → s = 0)) := by
  have hmerge := merged_rows_props cw res Hres Hfrac
  have htab : ∀ h ∈ harmonized_table cw res year,
      ∃ s, h.D_share = some s ∧ 0 ≤ s ∧ s ≤ 1 ∧ (h.total = 0 → s = 0) := by
    intro h hh
    unfold harmonized_table at hh
    rcases List.mem_map.mp hh with ⟨b, _, rfl⟩
    have hd0 : 0 ≤ groupSum (merge_crosswalk_results cw res) (fun a => a.baseId)
        (fun a => a.D_votes * a.frac) b := by
      apply groupSum_nonneg
      intro a ha
      exact mul_nonneg (hmerge a ha).2.1 (hmerge a ha).1
    have hr0 : 0 ≤ groupSum (merge_crosswalk_results cw res) (fun a => a.baseId)
        (fun a => a.R_votes * a.frac) b := by
      apply groupSum_nonneg
      intro a ha
      exact mul_nonneg (hmerge a ha).2.2.1 (hmerge a ha).1
    have htsplit : groupSum (merge_crosswalk_results cw res) (fun a => a.baseId)
        (fun a => a.total * a.frac) b
        = groupSum (merge_crosswalk_results cw res) (fun a => a.baseId)
            (fun a => a.D_votes * a.frac) b
          + groupSum (merge_crosswalk_results cw res) (fun a => a.baseId)
            (fun a => a.R_votes * a.frac) b := by
      apply groupSum_add_split
      intro a ha
      rw [(hmerge a ha).2.2.2]
      ring
    set dpre := groupSum (merge_crosswalk_results cw res) (fun a => a.baseId)
      (fun a => a.D_votes * a.frac) b
    set tpre := groupSum (merge_crosswalk_results cw res) (fun a => a.baseId)
      (fun a => a.total * a.frac) b
    have hdt : npRound dpre ≤ npRound tpre := npRound_mono (by linarith)
    have hd0i : 0 ≤ npRound dpre := by
      have h2 := npRound_mono hd0
      rwa [npRound_zero] at h2
    have ht0i : 0 ≤ npRound tpre := le_trans hd0i hdt
    by_cases hz : npRound tpre = 0
    · refine ⟨0, ?_, le_refl 0, by norm_num, fun _ => rfl⟩
      show fillna_zero_div ((npRound dpre : ℚ)) ((npRound tpre : ℚ)) = some 0
      have hdz : npRound dpre = 0 := le_antisymm (hz ▸ hdt) hd0i
      rw [hdz, hz]
      unfold fillna_zero_div
      norm_num
    · have htpos : 0 < npRound tpre := lt_of_le_of_ne ht0i (Ne.symm hz)
      refine ⟨(npRound dpre : ℚ) / (npRound tpre : ℚ), ?_, ?_, ?_, ?_⟩
      · show fillna_zero_div ((npRound dpre : ℚ)) ((npRound tpre : ℚ)) = _
        unfold fillna_zero_div
        rw [if_neg (fun hq : ((npRound tpre : ℚ)) = 0 => hz (by exact_mod_cast hq))]
      · exact div_nonneg (by exact_mod_cast hd0i) (by exact_mod_cast ht0i)
      · exact (div_le_one (by exact_mod_cast htpos)).mpr (by exact_mod_cast hdt)
      · intro h0
        exact absurd h0 hz
  refine ⟨htab, ?_⟩
  intro h hh
  unfold harmonized_gdf at hh
  rcases List.mem_map.mp hh with ⟨b, _, rfl⟩
  cases hfind : (harmonized_table cw res year).find?
      (fun h => decide (h.base_id = b)) with
  | some h' =>
    exact htab h' (List.mem_of_find?_eq_some hfind)
  | none =>
    exact ⟨0, rfl, le_refl 0, by norm_num, fun _ => rfl⟩

/-- C3 (witness): the harmonized tables of one precinct (3 D votes, 1 R
vote) fully allocated to base polygon B1, with B2 zero-filled in the
geometry-joined form, satisfy the D_share bounds. -/
theorem harmonized_d_share_bounds_witness :
    (∀ h ∈ harmonized_table [⟨"P1", "B1", 1⟩] [⟨"P1", 3, 1, 4⟩] "2020",
      ∃ s, h.D_share = some s ∧ 0 ≤ s ∧ s ≤ 1 ∧ (h.total = 0 → s = 0))
    ∧ (∀ h ∈ harmonized_gdf ["B1", "B2"] [⟨"P1", "B1", 1⟩] [⟨"P1", 3, 1, 4⟩] "2020",
      ∃ s, h.D_share = some s ∧ 0 ≤ s ∧ s ≤ 1 ∧ (h.total = 0 → s = 0)) :=
  harmonized_d_share_bounds ["B1", "B2"] [⟨"P1", "B1", 1⟩] [⟨"P1", 3, 1, 4⟩] "2020"
    (by
      intro r hr
      simp only [List.mem_singleton] at hr
      subst hr
      refine ⟨by norm_num, by norm_num, by norm_num⟩)
    (by
      intro c hc
      simp only [List.mem_singleton] at hc
      subst hc
      norm_num)

/-! ## Claim C4 -/

/-- C4 (evaluation at the failing input): base polygon B2 has no
contributing crosswalk row.  The zero-filled record for B2 appears in the
geometry-joined table (persisted as the GeoPackage layer, and the
returned frame), but the persisted CSV is written from the pre-join
`harmonized` frame (harmonize.py line 190) and does not contain B2: the
per-year CSV is not rectangular over base polygons, although the code
computes the zero fill and the spec requires every base polygon in every
year's harmonized table. -/
theorem harmonized_csv_missing_base_rows :
    "B2" ∉ (harmonized_csv_rows [⟨"P1", "B1", 1⟩] [⟨"P1", 10, 5, 15⟩] "2020").map
        (fun t => t.1)
    ∧ "B2" ∈ (harmonized_gdf ["B1", "B2"] [⟨"P1", "B1", 1⟩]
        [⟨"P1", 10, 5, 15⟩] "2020").map (fun h => h.base_id) := by
  constructor
  · decide
  · decide

/-! ## Claim C9 -/

/-- C9 (counterexample to the claim as stated): `load_results_csv` does
not enforce non-negativity — a results row with `D_votes = -5` is
accepted and the returned record carries the negative count. -/
theorem load_results_negative_cex :
    (load_results_row ⟨"P1", Cell.num (-5), Cell.num 3⟩).D_votes = -5
    ∧ ¬(0 ≤ (load_results_row ⟨"P1", Cell.num (-5), Cell.num 3⟩).D_votes) := by
  have h : (load_results_row ⟨"P1", Cell.num (-5), Cell.num 3⟩).D_votes = -5 := by
    show truncToZero (toNumericFillnaZero (Cell.num (-5))) = -5
    norm_num [truncToZero, toNumericFillnaZero, toNumericCoerce]
    rw [show ((-5 : ℚ)) = ((-5 : ℤ) : ℚ) by norm_num, Int.ceil_intCast]
  exact ⟨h, by rw [h]; norm_num⟩

/-- C9 (amended): every record returned by `load_results_csv` has integer
votes with `total = D_votes + R_votes`, and missing or non-numeric vote
cells default to zero; the counts are non-negative provided the numeric
input values are non-negative — the loader itself does not enforce
non-negativity. -/
theorem load_results_invariants (rows : List RawResRow)
    (Hnn : ∀ row ∈ rows,
      0 ≤ toNumericFillnaZero row.dCell ∧ 0 ≤ toNumericFillnaZero row.rCell) :
    (∀ rec ∈ load_results_csv rows,
      0 ≤ rec.D_votes ∧ 0 ≤ rec.R_votes ∧ rec.total = rec.D_votes + rec.R_votes)
    ∧ (∀ row ∈ rows,
      (toNumericCoerce row.dCell = none → (load_results_row row).D_votes = 0)
      ∧ (toNumericCoerce row.rCell = none → (load_results_row row).R_votes = 0)) := by
  have htr : ∀ q : ℚ, 0 ≤ q → 0 ≤ truncToZero q := by
    intro q hq
    unfold truncToZero
    rw [if_neg (not_lt.mpr hq)]
    exact Int.floor_nonneg.mpr hq
  constructor
  · intro rec hrec
    rcases List.mem_map.mp hrec with ⟨row, hrow, rfl⟩
    have h := Hnn row hrow
    exact ⟨htr _ h.1, htr _ h.2, rfl⟩
  · intro row _
    constructor
    · intro hno
      show truncToZero (toNumericFillnaZero row.dCell) = 0
      unfold toNumericFillnaZero
      rw [hno]
      norm_num [truncToZero]
    · intro hno
      show truncToZero (toNumericFillnaZero row.rCell) = 0
      unfold toNumericFillnaZero
      rw [hno]
      norm_num [truncToZero]

/-- C9 (witness): a results file with one numeric row (12 D votes, a
missing R cell) satisfies the invariants: integer counts, total = D + R,
and the missing cell defaulted to zero. -/
theorem load_results_invariants_witness :
    (∀ rec ∈ load_results_csv [⟨"P1", Cell.num 12, Cell.na⟩],
      0 ≤ rec.D_votes ∧ 0 ≤ rec.R_votes ∧ rec.total = rec.D_votes + rec.R_votes)
    ∧ (∀ row ∈ ([⟨"P1", Cell.num 12, Cell.na⟩] : List RawResRow),
      (toNumericCoerce row.dCell = none → (load_results_row row).D_votes = 0)
      ∧ (toNumericCoerce row.rCell = none → (load_results_row row).R_votes = 0)) :=
  load_results_invariants [⟨"P1", Cell.num 12, Cell.na⟩]
    (by
      intro row hrow
      simp only [List.mem_singleton] at hrow
      subst hrow
      norm_num [toNumericFillnaZero, toNumericCoerce])

/-! ## Claim C8 -/

theorem aggShift_fields (prev : Option (String × ℚ × ℚ × ℚ))
    (rows : List (String × ℚ × ℚ × ℚ)) :
    ∀ a ∈ aggShift prev rows,
      a.turnout_change_yoy = a.turnout_prev.map (fun p => a.turnout - p)
      ∧ a.turnout_change_yoy_pct = pdDivFloat a.turnout_change_yoy a.turnout_prev := by
  induction rows generalizing prev with
  | nil =>
    intro a ha
    simp [aggShift] at ha
  | cons x rest ih =>
    intro a ha
    rw [aggShift] at ha
    rcases List.mem_cons.mp ha with rfl | ha'
    · constructor
      · cases prev <;> rfl
      · rfl
    · exact ih (some x) a ha'

/-- C8 (amended): in the per-polygon series of
`compute_two_party_metrics` the division by the previous turnout is
guarded (`replace(0, pd.NA)`), so `turnout_change_yoy_pct` is null
whenever the previous year's turnout is zero; but `county_aggregates`
divides without a guard, so at county level a zero previous turnout
yields +infinity when the current turnout is positive (−infinity if
negative) and NaN only when the current turnout is also zero. -/
theorem turnout_change_pct_guard (l l' : List LongRow) :
    (∀ m ∈ compute_two_party_metrics l, m.turnout_prev = some 0 →
      m.turnout_change_yoy_pct = none)
    ∧ (∀ a ∈ county_aggregates l', a.turnout_prev = some 0 →
      (0 < a.turnout → a.turnout_change_yoy_pct = PdFloat.pinf)
      ∧ (a.turnout < 0 → a.turnout_change_yoy_pct = PdFloat.ninf)
      ∧ (a.turnout = 0 → a.turnout_change_yoy_pct = PdFloat.na)) := by
  constructor
  · intro m hm hprev
    unfold compute_two_party_metrics at hm
    rcases List.mem_map.mp hm with ⟨p, _, rfl⟩
    have hprev' : p.2.map (fun a => a.total) = some 0 := hprev
    cases hp2 : p.2 with
    | none => rw [hp2] at hprev'; exact absurd hprev' (by simp)
    | some a0 =>
      rw [hp2] at hprev'
      have ha0 : a0.total = 0 := by
        simpa using hprev'
      show (match (some a0).map (fun a => a.total) with
        | none => none
        | some t => if t = 0 then none else some ((p.1.total - t) / t)) = none
      simp [ha0]
  · intro a ha hprev
    unfold county_aggregates at ha
    have hf := aggShift_fields none _ a ha
    have hchange : a.turnout_change_yoy = some (a.turnout - 0) := by
      rw [hf.1, hprev]
      rfl
    have hpct : a.turnout_change_yoy_pct = pdDivFloat (some (a.turnout - 0)) (some 0) := by
      rw [hf.2, hchange, hprev]
    rw [sub_zero] at hpct
    have hred : pdDivFloat (some a.turnout) (some 0)
        = if a.turnout = 0 then PdFloat.na
          else if 0 < a.turnout then PdFloat.pinf else PdFloat.ninf := by
      show (if (0 : ℚ) = 0 then
          (if a.turnout = 0 then PdFloat.na
           else if 0 < a.turnout then PdFloat.pinf else PdFloat.ninf)
        else PdFloat.fin (a.turnout / 0)) = _
      rw [if_pos rfl]
    refine ⟨?_, ?_, ?_⟩
    · intro hpos
      rw [hpct, hred, if_neg (ne_of_gt hpos), if_pos hpos]
    · intro hneg
      rw [hpct, hred, if_neg (ne_of_lt hneg), if_neg (not_lt.mpr (le_of_lt hneg))]
    · intro hzero
      rw [hpct, hred, if_pos hzero]

/-- C8 (counterexample to the claim as stated): with county turnout 0 in
2020 and 10 in 2024, the county-level `turnout_change_yoy_pct` for 2024
is +infinity, not null — `county_aggregates` divides by the previous
turnout without the zero guard. -/
theorem county_turnout_pct_unguarded_cex :
    (county_aggregates [⟨"B1", "2020", 0, 0, 0, 0⟩,
        ⟨"B1", "2024", 6, 4, 10, 3/5⟩]).map (fun a => a.turnout_change_yoy_pct)
      = [PdFloat.na, PdFloat.pinf] := by
  have hkeys : groupKeys ([⟨"B1", "2020", 0, 0, 0, 0⟩,
      ⟨"B1", "2024", 6, 4, 10, 3/5⟩] : List LongRow) (fun r => r.year)
      = ["2020", "2024"] := by
    show (["2020", "2024"] : List String).dedup = ["2020", "2024"]
    rw [List.dedup_cons_of_not_mem (by decide),
      List.dedup_cons_of_not_mem (by decide), List.dedup_nil]
  have hsort : (["2020", "2024"] : List String).mergeSort (fun a b => decide (a ≤ b))
      = ["2020", "2024"] := by
    apply List.mergeSort_of_sorted
    refine List.Pairwise.cons ?_ (List.pairwise_singleton _ _)
    intro b hb
    simp only [List.mem_singleton] at hb
    subst hb
    exact decide_eq_true (by rw [String.le_iff_toList_le]; decide)
  have hca : county_aggregates [⟨"B1", "2020", 0, 0, 0, 0⟩,
      ⟨"B1", "2024", 6, 4, 10, 3/5⟩] = aggShift none
      (["2020", "2024"].map (fun y =>
        (y, groupSum ([⟨"B1", "2020", 0, 0, 0, 0⟩,
              ⟨"B1", "2024", 6, 4, 10, 3/5⟩] : List LongRow)
            (fun r => r.year) (fun r => r.D_votes) y,
          groupSum ([⟨"B1", "2020", 0, 0, 0, 0⟩,
              ⟨"B1", "2024", 6, 4, 10, 3/5⟩] : List LongRow)
            (fun r => r.year) (fun r => r.R_votes) y,
          groupSum ([⟨"B1", "2020", 0, 0, 0, 0⟩,
              ⟨"B1", "2024", 6, 4, 10, 3/5⟩] : List LongRow)
            (fun r => r.year) (fun r => r.total) y))) := by
    unfold county_aggregates
    rw [hkeys, hsort]
  have ht20 : groupSum ([⟨"B1", "2020", 0, 0, 0, 0⟩,
      ⟨"B1", "2024", 6, 4, 10, 3/5⟩] : List LongRow)
      (fun r => r.year) (fun r => r.total) "2020" = 0 := by
    unfold groupSum
    rw [List.filter_cons, List.filter_cons, List.filter_nil]
    norm_num
    rw [if_neg (by decide : ¬("2024" : String) = "2020")]
    norm_num
  have ht24 : groupSum ([⟨"B1", "2020", 0, 0, 0, 0⟩,
      ⟨"B1", "2024", 6, 4, 10, 3/5⟩] : List LongRow)
      (fun r => r.year) (fun r => r.total) "2024" = 10 := by
    unfold groupSum
    rw [List.filter_cons, List.filter_cons, List.filter_nil]
    norm_num
    rw [if_neg (by decide : ¬("2020" : String) = "2024")]
    norm_num
  rw [hca]
  show [pdDivFloat none none,
      pdDivFloat (some (groupSum ([⟨"B1", "2020", 0, 0, 0, 0⟩,
          ⟨"B1", "2024", 6, 4, 10, 3/5⟩] : List LongRow)
          (fun r => r.year) (fun r => r.total) "2024"
        - groupSum ([⟨"B1", "2020", 0, 0, 0, 0⟩,
          ⟨"B1", "2024", 6, 4, 10, 3/5⟩] : List LongRow)
          (fun r => r.year) (fun r => r.total) "2020"))
        (some (groupSum ([⟨"B1", "2020", 0, 0, 0, 0⟩,
          ⟨"B1", "2024", 6, 4, 10, 3/5⟩] : List LongRow)
          (fun r => r.year) (fun r => r.total) "2020"))]
    = [PdFloat.na, PdFloat.pinf]
  rw [ht20, ht24]
  have hfin : pdDivFloat (some ((10 : ℚ) - 0)) (some 0) = PdFloat.pinf := by
    show (if (0 : ℚ) = 0 then
        (if (10 : ℚ) - 0 = 0 then PdFloat.na
         else if 0 < (10 : ℚ) - 0 then PdFloat.pinf else PdFloat.ninf)
      else PdFloat.fin (((10 : ℚ) - 0) / 0)) = PdFloat.pinf
    rw [if_pos rfl, if_neg (by norm_num), if_pos (by norm_num)]
  rw [hfin]
  rfl

/-! ## Claim C7 -/

theorem lexLe_trans (a b c : LongRow) (hab : lexLe a b = true)
    (hbc : lexLe b c = true) : lexLe a c = true := by
  unfold lexLe at hab hbc ⊢
  rw [decide_eq_true_eq] at hab hbc ⊢
  rcases hab with h1 | ⟨h1, h2⟩ <;> rcases hbc with h3 | ⟨h3, h4⟩
  · exact Or.inl (lt_trans h1 h3)
  · exact Or.inl (by rw [← h3]; exact h1)
  · exact Or.inl (by rw [h1]; exact h3)
  · exact Or.inr ⟨h1.trans h3, le_trans h2 h4⟩

theorem lexLe_total (a b : LongRow) : (lexLe a b || lexLe b a) = true := by
  unfold lexLe
  rw [Bool.or_eq_true, decide_eq_true_eq, decide_eq_true_eq]
  rcases lt_trichotomy a.base_id b.base_id with h | h | h
  · exact Or.inl (Or.inl h)
  · rcases le_total a.year b.year with h2 | h2
    · exact Or.inl (Or.inr ⟨h, h2⟩)
    · exact Or.inr (Or.inr ⟨h.symm, h2⟩)
  · exact Or.inr (Or.inl h)

theorem shiftRows_mem (seen rest : List LongRow) (p : LongRow × Option LongRow)
    (hp : p ∈ shiftRows seen rest) :
    ∃ n, rest[n]? = some p.1 ∧ p.2 = prevSameGroup (seen ++ rest.take n) p.1 := by
  induction rest generalizing seen with
  | nil => exact absurd hp (List.not_mem_nil p)
  | cons r t ih =>
    rw [shiftRows] at hp
    rcases List.mem_cons.mp hp with rfl | hp'
    · refine ⟨0, ?_, ?_⟩
      · rw [List.getElem?_cons_zero]
      · rw [List.take_zero, List.append_nil]
    · rcases ih (seen ++ [r]) hp' with ⟨n, hn, hprev⟩
      refine ⟨n + 1, ?_, ?_⟩
      · rw [List.getElem?_cons_succ]
        exact hn
      · rw [hprev]
        congr 1
        rw [List.append_assoc]
        rfl

theorem maxYearRow_spec (L : List LongRow) (h : L ≠ []) :
    ∃ m, maxYearRow L = some m ∧ m ∈ L ∧ ∀ x ∈ L, x.year ≤ m.year := by
  induction L with
  | nil => exact absurd rfl h
  | cons a t ih =>
    cases t with
    | nil =>
      refine ⟨a, rfl, List.mem_cons_self a [], ?_⟩
      intro x hx
      rcases List.mem_singleton.mp hx with rfl
      exact le_refl _
    | cons b t' =>
      rcases ih (by simp) with ⟨m, hm, hmem, hmax⟩
      unfold maxYearRow
      rw [hm]
      by_cases hy : a.year < m.year
      · refine ⟨m, ?_, List.mem_cons_of_mem a hmem, ?_⟩
        · show (if a.year < m.year then some m else some a) = some m
          rw [if_pos hy]
        · intro x hx
          rcases List.mem_cons.mp hx with rfl | h'
          · exact le_of_lt hy
          · exact hmax x h'
      · refine ⟨a, ?_, List.mem_cons_self a _, ?_⟩
        · show (if a.year < m.year then some m else some a) = some a
          rw [if_neg hy]
        · intro x hx
          rcases List.mem_cons.mp hx with rfl | h'
          · exact le_refl _
          · exact le_trans (hmax x h') (not_lt.mp hy)

theorem pairwise_rel_getLast (G : List LongRow) (Rel : LongRow → LongRow → Prop)
    (hp : G.Pairwise Rel) (hne : G ≠ []) :
    ∀ x ∈ G, x = G.getLast hne ∨ Rel x (G.getLast hne) := by
  induction G with
  | nil => exact absurd rfl hne
  | cons a t ih =>
    intro x hx
    cases t with
    | nil =>
      rcases List.mem_singleton.mp hx with rfl
      exact Or.inl rfl
    | cons b t' =>
      have hne' : b :: t' ≠ [] := by simp
      have hlast : (a :: b :: t').getLast hne = (b :: t').getLast hne' :=
        List.getLast_cons hne'
      rcases List.mem_cons.mp hx with rfl | hx'
      · right
        rw [hlast]
        exact (List.pairwise_cons.mp hp).1 _ (List.getLast_mem hne')
      · rcases ih (List.pairwise_cons.mp hp).2 hne' x hx' with h | h
        · left
          rw [hlast]
          exact h
        · right
          rw [hlast]
          exact h

/-- C7: on an input with at most one row per (base polygon, year),
`compute_two_party_metrics` sets `swing_yoy` to the row's `D_share` minus
the same polygon's `D_share` at the greatest earlier year (the previous
observed year, years sorted ascending), and to null for a polygon's first
observed year. -/
theorem swing_yoy_prev_year (l : List LongRow)
    (Huniq : l.Pairwise (fun a b => ¬(a.base_id = b.base_id ∧ a.year = b.year))) :
    ∀ m ∈ compute_two_party_metrics l,
      m.swing_yoy = (prev_observed_row l m.row).map
        (fun a => m.row.D_share - a.D_share) := by
  intro m hm
  unfold compute_two_party_metrics at hm
  rcases List.mem_map.mp hm with ⟨p, hp, rfl⟩
  rcases shiftRows_mem [] _ p hp with ⟨n, hn, hprev⟩
  rw [List.nil_append] at hprev
  set s := sort_values_id_year l with hs
  have hperm : s.Perm l := List.mergeSort_perm l lexLe
  have hsorted : List.Pairwise (fun a b => lexLe a b = true) s :=
    List.sorted_mergeSort (fun a b c => lexLe_trans a b c) (fun a b => lexLe_total a b) l
  have hsymm : ∀ {x y : LongRow}, ¬(x.base_id = y.base_id ∧ x.year = y.year) →
      ¬(y.base_id = x.base_id ∧ y.year = x.year) :=
    fun h hc => h ⟨hc.1.symm, hc.2.symm⟩
  have huniq_s : s.Pairwise (fun a b => ¬(a.base_id = b.base_id ∧ a.year = b.year)) :=
    (List.Perm.pairwise_iff (fun h => hsymm h) hperm).mpr Huniq
  rcases List.getElem?_eq_some.mp hn with ⟨hlt, hgetn⟩
  -- Step A: every same-polygon row before position n has a strictly earlier year
  have stepA : ∀ x ∈ s.take n, x.base_id = p.1.base_id → x.year < p.1.year := by
    intro x hx hbid
    rcases List.mem_iff_getElem?.mp hx with ⟨i, hi⟩
    rw [List.getElem?_take] at hi
    by_cases hin : i < n
    · rw [if_pos hin] at hi
      rcases List.getElem?_eq_some.mp hi with ⟨hilt, hgeti⟩
      have hrel := List.pairwise_iff_getElem.mp hsorted i n hilt hlt hin
      rw [hgeti, hgetn] at hrel
      unfold lexLe at hrel
      rw [decide_eq_true_eq] at hrel
      have hle : x.year ≤ p.1.year := by
        rcases hrel with h1 | ⟨_, h2⟩
        · rw [hbid] at h1
          exact absurd h1 (lt_irrefl _)
        · exact h2
      have hne : x.year ≠ p.1.year := by
        intro hyeq
        have hx_ne : i ≠ n := Nat.ne_of_lt hin
        have hr := List.pairwise_iff_getElem.mp huniq_s i n hilt hlt hin
        rw [hgeti, hgetn] at hr
        exact hr ⟨hbid, hyeq⟩
      exact lt_of_le_of_ne hle hne
    · rw [if_neg hin] at hi
      exact absurd hi (by simp)
  -- Step B: every same-polygon row of l with an earlier year sits before position n
  have stepB : ∀ x ∈ l, x.base_id = p.1.base_id → x.year < p.1.year →
      x ∈ s.take n := by
    intro x hxl hbid hyear
    have hxs : x ∈ s := hperm.mem_iff.mpr hxl
    rcases List.mem_iff_getElem?.mp hxs with ⟨j, hj⟩
    rcases List.getElem?_eq_some.mp hj with ⟨hjlt, hgetj⟩
    rcases lt_trichotomy j n with hjn | hjn | hjn
    · apply List.mem_iff_getElem?.mpr
      exact ⟨j, by rw [List.getElem?_take, if_pos hjn]; exact hj⟩
    · subst hjn
      rw [hgetn] at hgetj
      rw [hgetj] at hyear
      exact absurd hyear (lt_irrefl _)
    · have hrel := List.pairwise_iff_getElem.mp hsorted n j hlt hjlt hjn
      rw [hgetj, hgetn] at hrel
      unfold lexLe at hrel
      rw [decide_eq_true_eq] at hrel
      rcases hrel with h1 | ⟨_, h2⟩
      · rw [hbid] at h1
        exact absurd h1 (lt_irrefl _)
      · exact absurd h2 (not_le.mpr hyear)
  -- the filtered groups on the two sides have the same membership
  have hGmem : ∀ x,
      x ∈ (s.take n).filter (fun a => decide (a.base_id = p.1.base_id))
      ↔ x ∈ l.filter (fun a => decide (a.base_id = p.1.base_id ∧ a.year < p.1.year)) := by
    intro x
    constructor
    · intro hx
      rcases List.mem_filter.mp hx with ⟨hmem, hbid⟩
      rw [decide_eq_true_eq] at hbid
      refine List.mem_filter.mpr ⟨hperm.mem_iff.mp (List.mem_of_mem_take hmem), ?_⟩
      rw [decide_eq_true_eq]
      exact ⟨hbid, stepA x hmem hbid⟩
    · intro hx
      rcases List.mem_filter.mp hx with ⟨hmem, hcond⟩
      rw [decide_eq_true_eq] at hcond
      refine List.mem_filter.mpr ⟨stepB x hmem hcond.1 hcond.2, ?_⟩
      rw [decide_eq_true_eq]
      exact hcond.1
  have huniq_vals : ∀ x ∈ l, ∀ y ∈ l, x.base_id = y.base_id → x.year = y.year →
      x = y := by
    intro x hx y hy hb hy2
    by_cases hxy : x = y
    · exact hxy
    · exact absurd ⟨hb, hy2⟩ (List.Pairwise.forall (fun _ _ h => hsymm h) Huniq hx hy hxy)
  -- Step D: the group shift's value is the spec's previous observed row
  have hE : prevSameGroup (s.take n) p.1 = prev_observed_row l p.1 := by
    unfold prevSameGroup prev_observed_row
    by_cases hGnil : (s.take n).filter (fun a => decide (a.base_id = p.1.base_id)) = []
    · have hfn : l.filter (fun a =>
          decide (a.base_id = p.1.base_id ∧ a.year < p.1.year)) = [] := by
        rw [List.eq_nil_iff_forall_not_mem]
        intro y hy
        have hyG := (hGmem y).mpr hy
        rw [hGnil] at hyG
        exact absurd hyG (by simp)
      rw [hGnil, hfn]
      rfl
    · have hfne : l.filter (fun a =>
          decide (a.base_id = p.1.base_id ∧ a.year < p.1.year)) ≠ [] := by
        rcases List.exists_mem_of_ne_nil _ hGnil with ⟨g0, hg0⟩
        exact List.ne_nil_of_mem ((hGmem g0).mp hg0)
      rcases maxYearRow_spec _ hfne with ⟨gm, hgm, hgmmem, hgmmax⟩
      have hGsorted : ((s.take n).filter
          (fun a => decide (a.base_id = p.1.base_id))).Pairwise
          (fun a b => lexLe a b = true) :=
        List.Pairwise.sublist ((List.filter_sublist _).trans (List.take_sublist n s))
          hsorted
      have hglmem : ((s.take n).filter
          (fun a => decide (a.base_id = p.1.base_id))).getLast hGnil
          ∈ (s.take n).filter (fun a => decide (a.base_id = p.1.base_id)) :=
        List.getLast_mem hGnil
      have hglmax : ∀ x ∈ (s.take n).filter (fun a => decide (a.base_id = p.1.base_id)),
          x.year ≤ (((s.take n).filter
            (fun a => decide (a.base_id = p.1.base_id))).getLast hGnil).year := by
        intro x hx
        rcases pairwise_rel_getLast _ _ hGsorted hGnil x hx with heq | hrel
        · rw [heq]
        · unfold lexLe at hrel
          rw [decide_eq_true_eq] at hrel
          have hxb : x.base_id = p.1.base_id := by
            have h2 := (List.mem_filter.mp hx).2
            rwa [decide_eq_true_eq] at h2
          have hglb : (((s.take n).filter
              (fun a => decide (a.base_id = p.1.base_id))).getLast hGnil).base_id
              = p.1.base_id := by
            have h2 := (List.mem_filter.mp hglmem).2
            rwa [decide_eq_true_eq] at h2
          rcases hrel with h1 | ⟨_, h2⟩
          · rw [hxb, hglb] at h1
            exact absurd h1 (lt_irrefl _)
          · exact h2
      have hglf := (hGmem _).mp hglmem
      have hgmG : gm ∈ (s.take n).filter (fun a => decide (a.base_id = p.1.base_id)) :=
        (hGmem gm).mpr hgmmem
      have hyeq : (((s.take n).filter
          (fun a => decide (a.base_id = p.1.base_id))).getLast hGnil).year = gm.year :=
        le_antisymm (hgmmax _ hglf) (hglmax gm hgmG)
      have hbeq : (((s.take n).filter
          (fun a => decide (a.base_id = p.1.base_id))).getLast hGnil).base_id
          = gm.base_id := by
        have h1 := (List.mem_filter.mp hglmem).2
        have h2 := (List.mem_filter.mp hgmG).2
        rw [decide_eq_true_eq] at h1 h2
        rw [h1, h2]
      have hgleq : ((s.take n).filter
          (fun a => decide (a.base_id = p.1.base_id))).getLast hGnil = gm :=
        huniq_vals _ (List.mem_of_mem_filter hglf)
          gm (List.mem_of_mem_filter hgmmem) hbeq hyeq
      rw [List.getLast?_eq_getLast _ hGnil, hgm, hgleq]
  rw [hprev, hE]

/-- C7 (witness): a two-year series with `D_share` constant at 0.5 — the
first year's `swing_yoy` is null and the later year's is exactly 0. -/
theorem swing_yoy_prev_year_witness :
    (([⟨"B1", "2020", 5, 5, 10, 1/2⟩, ⟨"B1", "2024", 6, 6, 12, 1/2⟩] :
        List LongRow).Pairwise
        (fun a b => ¬(a.base_id = b.base_id ∧ a.year = b.year)))
    ∧ (∀ m ∈ compute_two_party_metrics
          [⟨"B1", "2020", 5, 5, 10, 1/2⟩, ⟨"B1", "2024", 6, 6, 12, 1/2⟩],
        m.swing_yoy = (prev_observed_row
            [⟨"B1", "2020", 5, 5, 10, 1/2⟩, ⟨"B1", "2024", 6, 6, 12, 1/2⟩]
            m.row).map (fun a => m.row.D_share - a.D_share))
    ∧ ((compute_two_party_metrics
          [⟨"B1", "2020", 5, 5, 10, 1/2⟩, ⟨"B1", "2024", 6, 6, 12, 1/2⟩]).map
        (fun m => m.swing_yoy)) = [none, some 0] := by
  have hpw : ([⟨"B1", "2020", 5, 5, 10, 1/2⟩, ⟨"B1", "2024", 6, 6, 12, 1/2⟩] :
      List LongRow).Pairwise
      (fun a b => ¬(a.base_id = b.base_id ∧ a.year = b.year)) := by
    refine List.Pairwise.cons ?_ (List.pairwise_singleton _ _)
    intro b hb
    rcases List.mem_singleton.mp hb with rfl
    intro hc
    exact (by decide : ("2020" : String) ≠ "2024") hc.2
  have hsort7 : sort_values_id_year
      [⟨"B1", "2020", 5, 5, 10, 1/2⟩, ⟨"B1", "2024", 6, 6, 12, 1/2⟩]
      = [⟨"B1", "2020", 5, 5, 10, 1/2⟩, ⟨"B1", "2024", 6, 6, 12, 1/2⟩] := by
    apply List.mergeSort_of_sorted
    refine List.Pairwise.cons ?_ (List.pairwise_singleton _ _)
    intro b hb
    rcases List.mem_singleton.mp hb with rfl
    exact decide_eq_true (Or.inr ⟨rfl, by rw [String.le_iff_toList_le]; decide⟩)
  refine ⟨hpw, swing_yoy_prev_year _ hpw, ?_⟩
  unfold compute_two_party_metrics
  rw [hsort7]
  show ([none, some ((1 : ℚ)/2 - 1/2)] : List (Option ℚ)) = [none, some 0]
  norm_num

/-! ## Claim C10 -/

theorem heapExt_refl (h : Heap) : heapExt h h := ⟨le_refl _, fun _ _ => rfl⟩

theorem heapExt_trans {h1 h2 h3 : Heap} (a : heapExt h1 h2) (b : heapExt h2 h3) :
    heapExt h1 h3 := by
  refine ⟨le_trans a.1 b.1, fun r hr => ?_⟩
  rw [b.2 r (lt_of_lt_of_le hr a.1), a.2 r hr]

theorem heapExt_append {h h' : Heap} (v : PyFrame) (a : heapExt h h') :
    heapExt h (h' ++ [v]) := by
  refine ⟨le_trans a.1 (by simp), fun r hr => ?_⟩
  rw [List.getElem?_append, if_pos (lt_of_lt_of_le hr a.1), a.2 r hr]

theorem heapExt_store {h h' : Heap} (r0 : ℕ) (v : PyFrame) (a : heapExt h h')
    (hr0 : h.length ≤ r0) : heapExt h (heapStore h' r0 v) := by
  refine ⟨le_trans a.1 (by simp [heapStore]), fun r hr => ?_⟩
  unfold heapStore
  rw [List.getElem?_set_ne ((Nat.ne_of_lt (lt_of_lt_of_le hr hr0)).symm), a.2 r hr]

theorem area_branch_heap_ext (g : GeoOracle) (h : Heap) (rPast rBase : ℕ)
    (past_id base_id : String) (tol : ℚ) :
    heapExt h (area_branch_heap g h rPast rBase past_id base_id tol).1 := by
  simp only [area_branch_heap]
  split
  · exact heapExt_append _
      (heapExt_store _ _ (heapExt_append _ (heapExt_refl h)) (le_refl _))
  · apply heapExt_store
    · apply heapExt_append
      apply heapExt_store
      · apply heapExt_append
        apply heapExt_store
        · apply heapExt_append
          apply heapExt_store
          · exact heapExt_append _ (heapExt_refl h)
          · exact le_refl _
        · simp only [heapStore, List.length_set, List.length_append,
            List.length_cons, List.length_nil]
          omega
      · simp only [heapStore, List.length_set, List.length_append,
          List.length_cons, List.length_nil]
        omega
    · simp only [heapStore, List.length_set, List.length_append,
        List.length_cons, List.length_nil]
      omega

theorem pop_branch_heap_ext (g : GeoOracle) (h : Heap) (rPast rBase rBlocks : ℕ)
    (past_id base_id pop_field : String) (tol : ℚ) :
    heapExt h (pop_branch_heap g h rPast rBase rBlocks past_id base_id
      pop_field tol).1 := by
  simp only [pop_branch_heap]
  split
  · exact heapExt_refl h
  split
  · exact heapExt_refl h
  apply heapExt_store
  · apply heapExt_store
    · apply heapExt_store
      · apply heapExt_store
        · apply heapExt_append
          apply heapExt_append
          apply heapExt_store
          · apply heapExt_store
            · apply heapExt_store
              · apply heapExt_store
                · apply heapExt_append
                  apply heapExt_append
                  apply heapExt_store
                  · apply heapExt_store
                    · exact heapExt_append _ (heapExt_refl h)
                    · exact le_refl _
                  · exact le_refl _
                · simp only [heapStore, List.length_set, List.length_append,
                    List.length_cons, List.length_nil]
                  omega
              · simp only [heapStore, List.length_set, List.length_append,
                  List.length_cons, List.length_nil]
                omega
            · simp only [heapStore, List.length_set, List.length_append,
                List.length_cons, List.length_nil]
              omega
          · simp only [heapStore, List.length_set, List.length_append,
              List.length_cons, List.length_nil]
            omega
        · simp only [heapStore, List.length_set, List.length_append,
            List.length_cons, List.length_nil]
          omega
      · simp only [heapStore, List.length_set, List.length_append,
          List.length_cons, List.length_nil]
        omega
    · simp only [heapStore, List.length_set, List.length_append,
        List.length_cons, List.length_nil]
      omega
  · simp only [heapStore, List.length_set, List.length_append,
      List.length_cons, List.length_nil]
    omega

theorem build_crosswalk_heap_ext (g : GeoOracle) (h : Heap) (rPast rBase : ℕ)
    (rBlocks : Option ℕ) (past_id base_id weight : String)
    (block_pop_field : Option String) (tol : ℚ) :
    heapExt h (build_crosswalk_heap g h rPast rBase rBlocks past_id base_id weight
      block_pop_field tol).1 := by
  simp only [build_crosswalk_heap]
  split
  · exact heapExt_refl h
  split
  · exact heapExt_refl h
  split
  · exact heapExt_refl h
  split
  · exact heapExt_refl h
  split
  · exact heapExt_refl h
  split
  · refine heapExt_trans ?_ (area_branch_heap_ext g _ _ _ _ _ _)
    apply heapExt_store
    · apply heapExt_store
      · exact heapExt_append _ (heapExt_append _ (heapExt_refl h))
      · exact le_refl _
    · simp only [List.length_append, List.length_cons, List.length_nil]
      omega
  · refine heapExt_trans ?_ (pop_branch_heap_ext g _ _ _ _ _ _ _ _)
    apply heapExt_store
    · apply heapExt_store
      · exact heapExt_append _ (heapExt_append _ (heapExt_refl h))
      · exact le_refl _
    · simp only [List.length_append, List.length_cons, List.length_nil]
      omega

/-- C10: `build_crosswalk` does not mutate any of its input GeoDataFrames.
In the object-level model, every heap object that existed before the call
is unchanged after it, whether the call returns a crosswalk or raises:
the id normalization and every helper column are assigned only to freshly
allocated copies and overlay frames. -/
theorem build_crosswalk_no_input_mutation (g : GeoOracle) (h : Heap)
    (rPast rBase : ℕ) (rBlocks : Option ℕ) (past_id base_id weight : String)
    (block_pop_field : Option String) (tol : ℚ) (r : ℕ) (hr : r < h.length) :
    (build_crosswalk_heap g h rPast rBase rBlocks past_id base_id weight
      block_pop_field tol).1[r]? = h[r]? :=
  (build_crosswalk_heap_ext g h rPast rBase rBlocks past_id base_id weight
    block_pop_field tol).2 r hr

/-- C10 (witness): a concrete three-object heap (past, base, blocks
frames) is unchanged at the past frame's reference by an area-weighted
`build_crosswalk` call under a trivial geometric oracle. -/
theorem build_crosswalk_no_input_mutation_witness :
    (build_crosswalk_heap ⟨fun _ => [], fun _ _ => { crs := "", cols := [] }⟩
      [{ crs := "EPSG:3734", cols := [("PID", [FCell.strv "p1"])] },
       { crs := "EPSG:3734", cols := [("BID", [FCell.strv "b1"])] },
       { crs := "EPSG:3734", cols := [("POP20", [FCell.qv 7])] }]
      0 1 (some 2) "PID" "BID" "area" none 0).1[0]?
    = ([{ crs := "EPSG:3734", cols := [("PID", [FCell.strv "p1"])] },
        { crs := "EPSG:3734", cols := [("BID", [FCell.strv "b1"])] },
        { crs := "EPSG:3734", cols := [("POP20", [FCell.qv 7])] }] : Heap)[0]? :=
  build_crosswalk_no_input_mutation _ _ 0 1 (some 2) "PID" "BID" "area" none 0 0
    (by norm_num)

end FCVote
